import Mathlib

/-!
Shallow embedding of the Opulse operator registry and expression engine
(repository `opulse-exp/Opulse`), covering:

* `operatorplus/operator_info.py` — the `OperatorInfo` record and its
  JSON persistence (`to_json` / `from_json`);
* `operatorplus/operator_manager.py` — the registry (`operators` dict,
  symbol index, numeral-base index, compiled-function cache) and its
  operations `calculate_order`, `remove_operator`,
  `delete_one_operator_by_dep`, `_find_all_dependent_operator_ids`,
  `delete_one_operator`, `extract_op_dependencies`;
* `operatorplus/operator_generator.py` — `set_bit_if_not_set`,
  `check_and_set_recursion_validity`, `generate_lhs`,
  `generate_recursive_operator_data_by_loop`;
* `expression/expression_node.py` and `expression/expression_evaluator.py`
  — expression trees, `tree_to_str`, the structural fold
  `calculate_normalized_expansion_degree_node`, `init_expr`,
  `calculate_result`, `calculate_normalized_expansion_degree`;
* `expression/expression_generator.py` — `generate_atoms`,
  `generate_expression`.

Modelling conventions:

* Python `int` is `Int` (ids, priorities, orders); the recursion-usage
  bitmask is `Nat` (it is built only from `0` with `|=`).
* Python `None` on an optional field is `Option.none`.
* Python exceptions (`ValueError`, `KeyError`, `TypeError`,
  `AttributeError`, assertion failures, `exit(1)`) are `Except.error`
  with a message naming the exception.
* Python dicts are association lists in insertion order; `d[k] = v`
  updates in place when the key exists and appends otherwise; `del` /
  `pop` removes the unique entry.  Python mutates `OperatorInfo`
  objects shared between the indices; the model stores copies and
  re-applies each update at the key under consideration, which yields
  the same registry contents for the operations embedded here (each
  loop body's update is guarded so that a second application to the
  same object is a no-op).
* `random.choice` / `random.choices` / `random.randint` draw from an
  explicit oracle (`List Nat`) consumed left to right; a draw maps the
  popped number onto the support of the distribution, so the model
  ranges over exactly the outcomes the Python code can produce.
* The unbounded recursion of `_find_all_dependent_operator_ids` and of
  the retry loop in `generate_expression` is given explicit fuel; fuel
  exhaustion is an `Except.error` (or `Option.none`) distinct from any
  Python behaviour, and the theorems below either supply sufficient
  fuel or prove it sufficient.
* Compiled compute/cost procedures (built by `exec` in
  `operator_info.py`) are abstracted as function parameters
  (`OpSem`): the evaluator only ever applies them to non-NaN integer
  arguments, and they return an integer or the `"NaN"` sentinel.
* `json.dumps`/`json.loads` round-tripping of the serialisable dict is
  modelled as the identity on a record of the serialised fields
  (`PersistedOperator`).
-/

/-- A Python value flowing through compute/cost procedures: an integer or
the `"NaN"` string sentinel. -/
inductive PyVal where
  | int (n : Int)
  | nan
deriving DecidableEq

/-- `operator_info.py`, `OperatorInfo.__init__`: one operator record.
Field names and defaults follow the constructor.  The
`compiled_functions` cache holds callables and is not data; it is
dropped here (it is also dropped by `to_json`). -/
structure OperatorInfo where
  id : Int
  symbol : String
  n_ary : Int
  unary_position : Option String
  is_base : Option Int
  definition : Option String
  definition_type : Option String
  priority : Option Int
  associativity_direction : Option String
  n_order : Option Int
  op_compute_func : Option String
  op_count_func : Option String
  z3_compute_func : Option String := none
  properties : Option (List (String × Bool)) := none
  dependencies : Option (List Int) := none
  is_temporary : Bool := false
  recursive_used_cases : Nat := 0
  is_recursion_enabled : Bool := true
deriving DecidableEq

/-- The dict produced by `OperatorInfo.to_json`: a copy of `__dict__`
with `properties`, `is_temporary`, `recursive_used_cases`,
`is_recursion_enabled` and `compiled_functions` popped. -/
structure PersistedOperator where
  id : Int
  symbol : String
  n_ary : Int
  unary_position : Option String
  is_base : Option Int
  definition : Option String
  definition_type : Option String
  priority : Option Int
  associativity_direction : Option String
  n_order : Option Int
  op_compute_func : Option String
  op_count_func : Option String
  z3_compute_func : Option String
  dependencies : Option (List Int)
deriving DecidableEq

/-- `operator_info.py`, `OperatorInfo.to_json`. -/
def OperatorInfo.to_json (op : OperatorInfo) : PersistedOperator :=
  { id := op.id
    symbol := op.symbol
    n_ary := op.n_ary
    unary_position := op.unary_position
    is_base := op.is_base
    definition := op.definition
    definition_type := op.definition_type
    priority := op.priority
    associativity_direction := op.associativity_direction
    n_order := op.n_order
    op_compute_func := op.op_compute_func
    op_count_func := op.op_count_func
    z3_compute_func := op.z3_compute_func
    dependencies := op.dependencies }

/-- `operator_info.py`, `OperatorInfo.from_json`: `OperatorInfo(**data)`;
the keys absent from the persisted dict take the constructor defaults
(`properties = None`, `is_temporary = False`,
`recursive_used_cases = 0b00000000`, `is_recursion_enabled = True`). -/
def OperatorInfo.from_json (p : PersistedOperator) : OperatorInfo :=
  { id := p.id
    symbol := p.symbol
    n_ary := p.n_ary
    unary_position := p.unary_position
    is_base := p.is_base
    definition := p.definition
    definition_type := p.definition_type
    priority := p.priority
    associativity_direction := p.associativity_direction
    n_order := p.n_order
    op_compute_func := p.op_compute_func
    op_count_func := p.op_count_func
    z3_compute_func := p.z3_compute_func
    dependencies := p.dependencies }

/-- C9: loading the result of saving an `OperatorInfo`
(`from_json ∘ to_json`) reproduces every persisted field and resets
`is_temporary` to `False`, `recursive_used_cases` to `0`,
`is_recursion_enabled` to `True` and `properties` to `None`: the
recursion-safety bookkeeping and the temporary flag never survive a
save/load cycle. -/
theorem from_json_to_json_resets_bookkeeping (op : OperatorInfo) :
    OperatorInfo.from_json (OperatorInfo.to_json op) =
      { op with properties := none, is_temporary := false,
                recursive_used_cases := 0, is_recursion_enabled := true } := by
  rfl

/-! ### The registry's dictionaries

Python 3 dicts preserve insertion order; they are modelled as
association lists.  Keys in `self.operators` are unique (a dict). -/

/-- `self.operators.get(k)` / `self.operators[k]` when present. -/
def dictLookup (d : List (Int × OperatorInfo)) (k : Int) : Option OperatorInfo :=
  (d.find? (fun e => e.1 == k)).map Prod.snd

/-- The key view of a dict. -/
def dictKeys (d : List (Int × OperatorInfo)) : List Int :=
  d.map Prod.fst

/-- The value view of a dict (`self.operators.values()`). -/
def dictValues (d : List (Int × OperatorInfo)) : List OperatorInfo :=
  d.map Prod.snd

/-- `d[k] = v`: update in place when the key exists, append otherwise. -/
def dictSet (d : List (Int × OperatorInfo)) (k : Int) (v : OperatorInfo) :
    List (Int × OperatorInfo) :=
  if (d.find? (fun e => e.1 == k)).isSome then
    d.map (fun e => if e.1 == k then (k, v) else e)
  else
    d ++ [(k, v)]

/-- `del d[k]` / `d.pop(k)` (key unique in a dict). -/
def dictDel (d : List (Int × OperatorInfo)) (k : Int) : List (Int × OperatorInfo) :=
  d.filter (fun e => !(e.1 == k))

/-! ### `calculate_order` (`operator_manager.py`) -/

/-- Python's binary `max`; comparing `None` with anything raises
`TypeError`. -/
def pyMax2 : Option Int → Option Int → Except String (Option Int)
  | some a, some b => .ok (some (max a b))
  | _, _ => .error "TypeError: comparison with None"

/-- Python's `max` over a non-empty list: the head is taken as the
initial candidate without comparison (so `max([None])` is `None`),
and every later element is compared (raising on `None`). -/
def pyMaxList (x : Option Int) (rest : List (Option Int)) :
    Except String (Option Int) :=
  rest.foldlM pyMax2 x

/-- `operator_manager.py`, `OperatorManager.calculate_order`: an unknown
id is logged and left unchanged; an empty (or `None`, which is falsy)
dependency list gives order 1; otherwise the order is the maximum of
the dependencies' `n_order` values, plus 1 for a recursive definition.
A missing dependency key raises `KeyError`; `max` over a `None` order
raises `TypeError`. -/
def calculate_order (ops : List (Int × OperatorInfo)) (operator_id : Int) :
    Except String (List (Int × OperatorInfo)) :=
  match dictLookup ops operator_id with
  | none => .ok ops
  | some info =>
    match info.dependencies with
    | none => .ok (dictSet ops operator_id { info with n_order := some 1 })
    | some [] => .ok (dictSet ops operator_id { info with n_order := some 1 })
    | some (d :: ds) => do
      let orders ← (d :: ds).mapM (fun dep =>
        match dictLookup ops dep with
        | none => Except.error "KeyError: missing dependency id"
        | some o => Except.ok o.n_order)
      match orders with
      | [] => .error "unreachable: mapM preserves non-emptiness"
      | o :: os => do
        let m ← pyMaxList o os
        if info.definition_type == some "recursive_definition" then
          match m with
          | some mv =>
            .ok (dictSet ops operator_id { info with n_order := some (mv + 1) })
          | none => .error "TypeError: None + 1"
        else
          .ok (dictSet ops operator_id { info with n_order := m })

/-- `List.find?` on a cons, written with `cond`. -/
theorem find?_cons_eq (p : Int × OperatorInfo → Bool) (e : Int × OperatorInfo)
    (l : List (Int × OperatorInfo)) :
    List.find? p (e :: l) = cond (p e) (some e) (List.find? p l) := by
  rw [List.find?]
  cases p e <;> rfl

/-- Looking a key up right after setting it yields the value just set. -/
theorem dictLookup_dictSet (d : List (Int × OperatorInfo)) (k : Int) (v : OperatorInfo) :
    dictLookup (dictSet d k v) k = some v := by
  unfold dictLookup dictSet
  by_cases h : (d.find? (fun e => e.1 == k)).isSome
  · simp only [h, if_true]
    induction d with
    | nil => simp at h
    | cons e rest ih =>
      by_cases he : (e.1 == k) = true
      · rw [List.map_cons, if_pos he, find?_cons_eq]
        simp
      · have he' : (e.1 == k) = false := by simpa using he
        rw [List.map_cons, if_neg he, find?_cons_eq]
        simp only [he', cond_false]
        rw [find?_cons_eq] at h
        simp only [he', cond_false] at h
        exact ih h
  · rw [Option.not_isSome_iff_eq_none] at h
    rw [h, if_neg (by simp)]
    rw [List.find?_append, h, find?_cons_eq]
    simp

/-- Python's `max` over a list whose elements are all integers is the
left fold of binary `max` from the head. -/
theorem pyMaxList_all_some (v : Int) (vs : List Int) :
    pyMaxList (some v) (vs.map some) = .ok (some (vs.foldl max v)) := by
  induction vs generalizing v with
  | nil => rfl
  | cons x xs ih =>
    simpa [pyMaxList, List.foldlM, pyMax2] using ih (max v x)

/-- The head is a lower bound of a `max` left fold. -/
theorem le_foldl_max (v : Int) (vs : List Int) : v ≤ vs.foldl max v := by
  induction vs generalizing v with
  | nil => simp
  | cons x xs ih => exact le_trans (le_max_left v x) (ih (max v x))

/-- The `+`/`*` example of the specification: `+` has id 1 and no
dependencies. -/
def plusOp : OperatorInfo :=
  { id := 1, symbol := "+", n_ary := 2, unary_position := none, is_base := none,
    definition := none, definition_type := some "simple_definition",
    priority := some 1, associativity_direction := some "left", n_order := none,
    op_compute_func := some "def op_1(a, b): return a + b",
    op_count_func := some "def op_count_1(a, b): return 0",
    dependencies := some [] }

/-- The `*` operator of the example (id 4, non-recursive, depends on `+`). -/
def timesOp : OperatorInfo :=
  { id := 4, symbol := "*", n_ary := 2, unary_position := none, is_base := none,
    definition := none, definition_type := some "simple_definition",
    priority := some 2, associativity_direction := some "left", n_order := none,
    op_compute_func := some "def op_4(a, b): return op_1(a, op_1(a, b))",
    op_count_func := some "def op_count_4(a, b): return op_count_1(a, b)",
    dependencies := some [1] }

/-- The example registry `{1: +, 4: *}`. -/
def regPT : List (Int × OperatorInfo) := [(1, plusOp), (4, timesOp)]

/-- The example registry after `calculate_order(1)`. -/
def regPTa : List (Int × OperatorInfo) :=
  dictSet regPT 1 { plusOp with n_order := some 1 }

/-- The example registry after `calculate_order(1)` then `calculate_order(4)`. -/
def regPTb : List (Int × OperatorInfo) :=
  dictSet regPTa 4 { timesOp with n_order := some 1 }

/-- The order formula as the specification states it: the maximum of the
dependency orders, plus 1 exactly when the definition kind is
recursive.  `v` is the first dependency order, `vs` the rest. -/
def spec_order_formula (info : OperatorInfo) (v : Int) (vs : List Int) : Int :=
  if info.definition_type == some "recursive_definition" then
    vs.foldl max v + 1
  else
    vs.foldl max v

/-- C4: `calculate_order` sets `n_order` to 1 when the dependency set is
empty (or unset), and otherwise to the maximum of the dependencies'
`n_order` values plus 1 exactly when the definition kind is recursive;
the computed order is at least 1 whenever the head dependency order is;
and on the example registry (`+` id 1 without dependencies,
non-recursive `*` id 4 depending on `[1]`), `calculate_order(1)` and
`calculate_order(4)` both produce order 1. -/
theorem calculate_order_spec :
    (∀ ops oid info, dictLookup ops oid = some info →
        info.dependencies = none ∨ info.dependencies = some [] →
        calculate_order ops oid =
          .ok (dictSet ops oid { info with n_order := some 1 })) ∧
    (∀ ops oid info (d : Int) ds (v : Int) vs,
        dictLookup ops oid = some info →
        info.dependencies = some (d :: ds) →
        ((d :: ds).mapM fun dep =>
          match dictLookup ops dep with
          | none => Except.error "KeyError: missing dependency id"
          | some o => Except.ok o.n_order) = Except.ok ((v :: vs).map some) →
        calculate_order ops oid =
          .ok (dictSet ops oid
            { info with n_order := some (spec_order_formula info v vs) })) ∧
    (∀ ops oid info (d : Int) ds (v : Int) vs,
        dictLookup ops oid = some info →
        info.dependencies = some (d :: ds) →
        ((d :: ds).mapM fun dep =>
          match dictLookup ops dep with
          | none => Except.error "KeyError: missing dependency id"
          | some o => Except.ok o.n_order) = Except.ok ((v :: vs).map some) →
        1 ≤ v →
        ∃ reg' o' w, calculate_order ops oid = .ok reg' ∧
          dictLookup reg' oid = some o' ∧ o'.n_order = some w ∧ 1 ≤ w) ∧
    (calculate_order regPT 1 = .ok regPTa ∧
      (dictLookup regPTa 1).bind OperatorInfo.n_order = some 1 ∧
      calculate_order regPTa 4 = .ok regPTb ∧
      (dictLookup regPTb 4).bind OperatorInfo.n_order = some 1) := by
  have main : ∀ ops oid info (d : Int) ds (v : Int) vs,
      dictLookup ops oid = some info →
      info.dependencies = some (d :: ds) →
      ((d :: ds).mapM fun dep =>
        match dictLookup ops dep with
        | none => Except.error "KeyError: missing dependency id"
        | some o => Except.ok o.n_order) = Except.ok ((v :: vs).map some) →
      calculate_order ops oid =
        .ok (dictSet ops oid
          { info with n_order := some (spec_order_formula info v vs) }) := by
    intro ops oid info d ds v vs hlook hdep horders
    unfold calculate_order spec_order_formula
    simp only [hlook, hdep, horders, List.map, bind, Except.bind]
    rw [pyMaxList_all_some]
    by_cases hrec : (info.definition_type == some "recursive_definition") = true
    · simp [hrec]
    · simp [hrec]
  refine ⟨?_, main, ?_, ?_, ?_, ?_, ?_⟩
  · intro ops oid info hlook hdep
    unfold calculate_order
    rcases hdep with h | h <;> simp only [hlook, h]
  · intro ops oid info d ds v vs hlook hdep horders hv
    refine ⟨_, _, _, main ops oid info d ds v vs hlook hdep horders,
      dictLookup_dictSet _ _ _, rfl, ?_⟩
    unfold spec_order_formula
    by_cases hrec : (info.definition_type == some "recursive_definition") = true
    · simp only [hrec, if_true]
      have := le_foldl_max v vs
      omega
    · simp only [hrec, if_false]
      exact le_trans hv (le_foldl_max v vs)
  · rfl
  · rfl
  · rfl
  · rfl

/-- Witness for C4: the parts of `calculate_order_spec` applied to the
concrete `+`/`*` example registry. -/
theorem calculate_order_spec_witness :
    calculate_order regPT 1 = .ok (dictSet regPT 1 { plusOp with n_order := some 1 }) ∧
    calculate_order regPTa 4 =
      .ok (dictSet regPTa 4 { timesOp with n_order := some (spec_order_formula timesOp 1 []) }) :=
  ⟨calculate_order_spec.1 regPT 1 plusOp rfl (Or.inr rfl),
   calculate_order_spec.2.1 regPTa 4 timesOp 1 [] 1 [] rfl rfl rfl⟩

/-! ### Recursion-safety bookkeeping (`operator_generator.py`) -/

/-- The configurable atom symbols (`param_config.atoms`) used by the
operator generator: operand names, parentheses, equals sign, NaN
symbol. -/
structure AtomsCfg where
  left_operand : String
  right_operand : String
  left_parenthesis : String
  right_parenthesis : String
  equal : String
  nan_symbol : String

/-- `operator_generator.py`, `OperatorGenerator.set_bit_if_not_set`:
sets `bit_position` in `recursive_used_cases` when clear (returning
`True`), clearing `is_recursion_enabled` when a unary operator's mask
reaches `0b11` or a binary operator's mask reaches `0b11111111`;
returns `False` and changes nothing when the bit is already set. -/
def set_bit_if_not_set (called_operator_info : OperatorInfo) (bit_position : Nat) :
    Bool × OperatorInfo :=
  if called_operator_info.recursive_used_cases &&& (1 <<< bit_position) == 0 then
    let upd := { called_operator_info with
      recursive_used_cases :=
        called_operator_info.recursive_used_cases ||| (1 <<< bit_position) }
    let upd :=
      if upd.n_ary == 1 then
        if upd.recursive_used_cases == 3 then
          { upd with is_recursion_enabled := false }
        else upd
      else if upd.n_ary == 2 then
        if upd.recursive_used_cases == 255 then
          { upd with is_recursion_enabled := false }
        else upd
      else upd
    (true, upd)
  else
    (false, called_operator_info)

/-- `operator_generator.py`,
`OperatorGenerator.check_and_set_recursion_validity`: dispatches the
(caller type, callee arity, parameter order) onto a bit position and
delegates to `set_bit_if_not_set`.  An unmatched parameter order falls
off the `if` chain and returns `None` (modelled `Option.none`); an
incompatible type/arity combination raises `ValueError`. -/
def check_and_set_recursion_validity (atoms : AtomsCfg)
    (called_operator_info : OperatorInfo) (op_type : String)
    (param_order : Option (String × String)) :
    Except String (Option Bool × OperatorInfo) :=
  if op_type == "binary" && called_operator_info.n_ary == 2 then
    if param_order == some ("result", "result") then
      let r := set_bit_if_not_set called_operator_info 0
      .ok (some r.1, r.2)
    else if param_order == some ("result", atoms.left_operand) then
      let r := set_bit_if_not_set called_operator_info 1
      .ok (some r.1, r.2)
    else if param_order == some ("result", atoms.right_operand) then
      let r := set_bit_if_not_set called_operator_info 2
      .ok (some r.1, r.2)
    else if param_order == some (atoms.left_operand, "result") then
      let r := set_bit_if_not_set called_operator_info 3
      .ok (some r.1, r.2)
    else if param_order == some (atoms.right_operand, "result") then
      let r := set_bit_if_not_set called_operator_info 4
      .ok (some r.1, r.2)
    else
      .ok (none, called_operator_info)
  else if op_type == "unary" && called_operator_info.n_ary == 2 then
    if param_order == some ("result", "result") then
      let r := set_bit_if_not_set called_operator_info 5
      .ok (some r.1, r.2)
    else if param_order == some ("result", atoms.left_operand) then
      let r := set_bit_if_not_set called_operator_info 6
      .ok (some r.1, r.2)
    else if param_order == some (atoms.left_operand, "result") then
      let r := set_bit_if_not_set called_operator_info 7
      .ok (some r.1, r.2)
    else
      .ok (none, called_operator_info)
  else if op_type == "binary" && called_operator_info.n_ary == 1 then
    let r := set_bit_if_not_set called_operator_info 0
    .ok (some r.1, r.2)
  else if op_type == "unary" && called_operator_info.n_ary == 1 then
    let r := set_bit_if_not_set called_operator_info 1
    .ok (some r.1, r.2)
  else
    .error "ValueError: Invalid operation: op_type and param_order are not compatible."

/-- `operator_generator.py`, `OperatorGenerator.generate_lhs`. -/
def generate_lhs (atoms : AtomsCfg) (op_symbol op_type : String)
    (op_position : Option String) : Except String String :=
  if op_type == "unary" then
    if op_position == some "prefix" then
      .ok (op_symbol ++ atoms.left_operand)
    else if op_position == some "postfix" then
      .ok (atoms.left_operand ++ op_symbol)
    else
      .error "ValueError: Invalid position for unary operator."
  else if op_type == "binary" then
    .ok (atoms.left_operand ++ op_symbol ++ atoms.right_operand)
  else
    .error "ValueError: Operator type must be either unary or binary."

/-- `operator_manager.py`, `OperatorManager.get_next_operator_id`: 1 on
an empty registry, else the maximum existing id plus 1. -/
def get_next_operator_id (ops : List (Int × OperatorInfo)) : Int :=
  match dictKeys ops with
  | [] => 1
  | k :: ks => ks.foldl max k + 1

/-- The `operator_data` dict assembled by
`generate_recursive_operator_data_by_loop`. -/
structure OperatorData where
  id : Int
  symbol : String
  n_ary : Int
  unary_position : Option String
  is_base : Option Int
  definition : String
  definition_type : String
  priority : Option Int
  associativity_direction : Option String
  n_order : Option Int
  op_compute_func : String
  op_count_func : String
  properties : Option (List (String × Bool))
  dependencies : Option (List Int)
  is_temporary : Bool
deriving DecidableEq

/-- The five routing options `random.choice` draws from for a binary
callee (`operator_generator.py` line 729). -/
def loop_param_options (atoms : AtomsCfg) : List (String × String) :=
  [("result", "result"),
   ("result", atoms.left_operand),
   ("result", atoms.right_operand),
   (atoms.left_operand, "result"),
   (atoms.right_operand, "result")]

/-- `operator_generator.py`,
`OperatorGenerator.generate_recursive_operator_data_by_loop` with
`op_type, op_position = "binary", None` (line 701).  The random draws
are parameters: the fresh symbol `op_symbol` (from `random_operator`),
the callee record (from `get_random_recursive_call_operator`) and the
index of the parameter-routing choice.  Returns the `operator_data`
record, or `none` when the recursion-validity check rejects the
candidate, together with the (possibly updated) callee record. -/
def generate_recursive_operator_data_by_loop (atoms : AtomsCfg)
    (ops : List (Int × OperatorInfo)) (op_symbol : String)
    (called_operator_info : OperatorInfo) (param_order_idx : Nat) :
    Except String (Option OperatorData × OperatorInfo) := do
  let id := get_next_operator_id ops
  let called_id := called_operator_info.id
  let called_symbol := called_operator_info.symbol
  let lhs ← generate_lhs atoms op_symbol "binary" none
  if called_operator_info.n_ary == 2 then
    let param_order :=
      (loop_param_options atoms).getD (param_order_idx % 5) ("result", "result")
    let param1 := param_order.1
    let param2 := param_order.2
    let (okBit, called') ←
      check_and_set_recursion_validity atoms called_operator_info "binary"
        (some param_order)
    if okBit == some true then
      let op_compute_fun :=
        "def op_" ++ toString id ++ "(a, b):\n    if a == \x27NaN\x27 or b == \x27NaN\x27:\n        return \x27NaN\x27\n    result = a\n    for i in range(abs(b)):\n        result = op_" ++ toString called_id ++ "(" ++ param1 ++ ", " ++ param2 ++ ")\n    return result\n"
      let op_count_fun :=
        "def op_count_" ++ toString id ++ "(a, b):\n    if a == \x27NaN\x27 or b == \x27NaN\x27:\n        return \x27NaN\x27\n    count = 0 \n    for i in range(abs(b)):\n        count += op_count_" ++ toString called_id ++ "(" ++ param1 ++ ", " ++ param2 ++ ")\n    return count \n"
      let param1_str_1 :=
        if param1 == "result" then
          atoms.left_operand ++ op_symbol ++ atoms.left_parenthesis ++
            atoms.right_operand ++ "-1" ++ atoms.right_parenthesis
        else param1
      let param1_str_2 :=
        if param1 == "result" then
          atoms.left_operand ++ op_symbol ++ atoms.left_parenthesis ++
            atoms.right_operand ++ "+1" ++ atoms.right_parenthesis
        else param1
      let param2_str_1 :=
        if param2 == "result" then
          atoms.left_operand ++ op_symbol ++ atoms.left_parenthesis ++
            atoms.right_operand ++ "-1" ++ atoms.right_parenthesis
        else param2
      let param2_str_2 :=
        if param2 == "result" then
          atoms.left_operand ++ op_symbol ++ atoms.left_parenthesis ++
            atoms.right_operand ++ "+1" ++ atoms.right_parenthesis
        else param2
      let rhs_1 := atoms.left_parenthesis ++ param1_str_1 ++ atoms.right_parenthesis ++
        called_symbol ++ atoms.left_parenthesis ++ param2_str_1 ++ atoms.right_parenthesis
      let rhs_2 := atoms.left_parenthesis ++ param1_str_2 ++ atoms.right_parenthesis ++
        called_symbol ++ atoms.left_parenthesis ++ param2_str_2 ++ atoms.right_parenthesis
      let definition := lhs ++ " = \x7b" ++ atoms.left_operand ++ ", if " ++
        atoms.right_operand ++ " == 0; " ++ rhs_1 ++ ", if " ++
        atoms.right_operand ++ " > 0; " ++ rhs_2 ++ ", else\x7d"
      .ok (some { id := id, symbol := op_symbol, n_ary := 2, unary_position := none,
                  is_base := none, definition := definition,
                  definition_type := "recursive_definition", priority := none,
                  associativity_direction := none, n_order := none,
                  op_compute_func := op_compute_fun, op_count_func := op_count_fun,
                  properties := none, dependencies := none, is_temporary := true },
            called')
    else
      .ok (none, called')
  else if called_operator_info.n_ary == 1 then
    let (okBit, called') ←
      check_and_set_recursion_validity atoms called_operator_info "binary" none
    if okBit == some true then
      let op_compute_fun :=
        "def op_" ++ toString id ++ "(a, b):\n    if a == \x27NaN\x27 or b == \x27NaN\x27:\n        return \x27NaN\x27\n    result = a\n    for i in range(abs(b)):\n        result = op_" ++ toString called_id ++ "(result)\n    return result\n"
      let op_count_fun :=
        "def op_count_" ++ toString id ++ "(a, b):\n    if a == \x27NaN\x27 or b == \x27NaN\x27:\n        return \x27NaN\x27\n    count = 0 \n    for i in range(abs(b)):\n        count += op_count_" ++ toString called_id ++ "(result)\n    return count \n"
      let param_str_1 := atoms.left_operand ++ op_symbol ++ atoms.left_parenthesis ++
        atoms.right_operand ++ "-1" ++ atoms.right_parenthesis
      let param_str_2 := atoms.left_operand ++ op_symbol ++ atoms.left_parenthesis ++
        atoms.right_operand ++ "+1" ++ atoms.right_parenthesis
      let rhs_pair ←
        if called_operator_info.unary_position == some "prefix" then
          Except.ok
            (called_symbol ++ atoms.left_parenthesis ++ param_str_1 ++ atoms.right_parenthesis,
             called_symbol ++ atoms.left_parenthesis ++ param_str_2 ++ atoms.right_parenthesis)
        else if called_operator_info.unary_position == some "postfix" then
          Except.ok
            (atoms.left_parenthesis ++ param_str_1 ++ atoms.right_parenthesis ++ called_symbol,
             atoms.left_parenthesis ++ param_str_2 ++ atoms.right_parenthesis ++ called_symbol)
        else
          Except.error "NameError: rhs_1 is not defined"
      let definition := lhs ++ " = \x7b" ++ atoms.left_operand ++ ", if " ++
        atoms.right_operand ++ " == 0; " ++ rhs_pair.1 ++ ", if " ++
        atoms.right_operand ++ " > 0; " ++ rhs_pair.2 ++ ", else\x7d"
      .ok (some { id := id, symbol := op_symbol, n_ary := 2, unary_position := none,
                  is_base := none, definition := definition,
                  definition_type := "recursive_definition", priority := none,
                  associativity_direction := none, n_order := none,
                  op_compute_func := op_compute_fun, op_count_func := op_count_fun,
                  properties := none, dependencies := none, is_temporary := true },
            called')
    else
      .ok (none, called')
  else
    .error "NameError: op_compute_fun is not defined"

/-- A set bit makes `set_bit_if_not_set` a no-op returning `False`. -/
theorem setbit_already_set (op : OperatorInfo) (bit : Nat)
    (h : (op.recursive_used_cases &&& (1 <<< bit) == 0) = false) :
    set_bit_if_not_set op bit = (false, op) := by
  simp only [set_bit_if_not_set, h]
  rfl

/-- The mask after `set_bit_if_not_set` is the old mask or the old mask
with exactly the requested bit joined in. -/
theorem setbit_mask_gains (op : OperatorInfo) (bit : Nat) :
    (set_bit_if_not_set op bit).2.recursive_used_cases = op.recursive_used_cases ∨
    (set_bit_if_not_set op bit).2.recursive_used_cases =
      op.recursive_used_cases ||| (1 <<< bit) := by
  simp only [set_bit_if_not_set]
  split_ifs <;> simp

/-- `set_bit_if_not_set` never turns `is_recursion_enabled` back on. -/
theorem setbit_no_reenable (op : OperatorInfo) (bit : Nat)
    (h : (set_bit_if_not_set op bit).2.is_recursion_enabled = true) :
    op.is_recursion_enabled = true := by
  simp only [set_bit_if_not_set] at h
  split_ifs at h <;> simp_all

/-- When a fresh bit completes the unary mask `0b11`, recursion is
disabled. -/
theorem setbit_disable_unary (op : OperatorInfo) (bit : Nat)
    (hset : (set_bit_if_not_set op bit).1 = true) (hna : op.n_ary = 1)
    (hmask : (set_bit_if_not_set op bit).2.recursive_used_cases = 3) :
    (set_bit_if_not_set op bit).2.is_recursion_enabled = false := by
  simp only [set_bit_if_not_set, hna] at hset hmask ⊢
  split_ifs at hset hmask ⊢ <;> simp_all

/-- When a fresh bit completes the binary mask `0b11111111`, recursion
is disabled. -/
theorem setbit_disable_binary (op : OperatorInfo) (bit : Nat)
    (hset : (set_bit_if_not_set op bit).1 = true) (hna : op.n_ary = 2)
    (hmask : (set_bit_if_not_set op bit).2.recursive_used_cases = 255) :
    (set_bit_if_not_set op bit).2.is_recursion_enabled = false := by
  simp only [set_bit_if_not_set, hna] at hset hmask ⊢
  split_ifs at hset hmask ⊢ <;> simp_all

/-- `check_and_set_recursion_validity` never turns
`is_recursion_enabled` back on. -/
theorem checkset_no_reenable (atoms : AtomsCfg) (op : OperatorInfo)
    (ty : String) (po : Option (String × String)) (r : Option Bool)
    (op' : OperatorInfo)
    (h : check_and_set_recursion_validity atoms op ty po = .ok (r, op'))
    (hen : op'.is_recursion_enabled = true) :
    op.is_recursion_enabled = true := by
  simp only [check_and_set_recursion_validity] at h
  split_ifs at h <;> simp_all <;>
    exact setbit_no_reenable op _ (by rw [← h.2] at hen; exact hen)


/-- `generate_recursive_operator_data_by_loop` never turns the callee's
`is_recursion_enabled` back on. -/
theorem genloop_no_reenable (atoms : AtomsCfg) (ops : List (Int × OperatorInfo))
    (sym : String) (op : OperatorInfo) (idx : Nat) (res : Option OperatorData)
    (op' : OperatorInfo)
    (h : generate_recursive_operator_data_by_loop atoms ops sym op idx = .ok (res, op'))
    (hen : op'.is_recursion_enabled = true) :
    op.is_recursion_enabled = true := by
  unfold generate_recursive_operator_data_by_loop at h
  simp only [generate_lhs, bind, Except.bind, String.reduceBEq, Bool.false_eq_true,
    eq_self_iff_true, if_false, if_true] at h
  by_cases h2 : (op.n_ary == 2) = true
  · rw [if_pos h2] at h
    cases hchk : check_and_set_recursion_validity atoms op "binary"
        (some ((loop_param_options atoms).getD (idx % 5) ("result", "result"))) with
    | error e => rw [hchk] at h; exact absurd h (by simp)
    | ok pr =>
      obtain ⟨b0, o2⟩ := pr
      rw [hchk] at h
      dsimp only at h
      split_ifs at h <;>
        (injection h with h'
         have hb : o2 = op' := congrArg Prod.snd h'
         exact checkset_no_reenable atoms op _ _ b0 o2 hchk (hb ▸ hen))
  · rw [if_neg h2] at h
    by_cases h1 : (op.n_ary == 1) = true
    · rw [if_pos h1] at h
      cases hchk : check_and_set_recursion_validity atoms op "binary" none with
      | error e => rw [hchk] at h; exact absurd h (by simp)
      | ok pr =>
        obtain ⟨b0, o2⟩ := pr
        rw [hchk] at h
        dsimp only at h
        split_ifs at h
        · injection h with h'
          have hb : o2 = op' := congrArg Prod.snd h'
          exact checkset_no_reenable atoms op _ _ b0 o2 hchk
            (show o2.is_recursion_enabled = true by rw [hb]; exact hen)
        · injection h with h'
          have hb : o2 = op' := congrArg Prod.snd h'
          exact checkset_no_reenable atoms op _ _ b0 o2 hchk
            (show o2.is_recursion_enabled = true by rw [hb]; exact hen)
        · injection h with h'
          have hb : o2 = op' := congrArg Prod.snd h'
          exact checkset_no_reenable atoms op _ _ b0 o2 hchk
            (show o2.is_recursion_enabled = true by rw [hb]; exact hen)
    · rw [if_neg h1] at h
      exact absurd h (by simp)

/-- A binary callee whose routing bit is already set makes the
recursive-by-loop candidate come back empty, with the callee untouched. -/
theorem genloop_reject_binary (atoms : AtomsCfg) (ops : List (Int × OperatorInfo))
    (sym : String) (op : OperatorInfo) (idx : Nat)
    (hna : op.n_ary = 2)
    (hL : atoms.left_operand ≠ "result") (hR : atoms.right_operand ≠ "result")
    (hLR : atoms.left_operand ≠ atoms.right_operand)
    (hbit : (op.recursive_used_cases &&& (1 <<< (idx % 5)) == 0) = false) :
    generate_recursive_operator_data_by_loop atoms ops sym op idx = .ok (none, op) := by
  have h5 : idx % 5 < 5 := Nat.mod_lt _ (by norm_num)
  unfold generate_recursive_operator_data_by_loop
  simp only [generate_lhs, bind, Except.bind, String.reduceBEq, Bool.false_eq_true,
    eq_self_iff_true, if_false, if_true, hna]
  set k := idx % 5 with hk
  interval_cases k <;>
    simp [loop_param_options, check_and_set_recursion_validity, hna,
      setbit_already_set op _ hbit, hL, hR, hLR, Ne.symm hLR, Prod.ext_iff]

/-- A unary callee whose bit 0 is already set makes the
recursive-by-loop candidate come back empty, with the callee untouched. -/
theorem genloop_reject_unary (atoms : AtomsCfg) (ops : List (Int × OperatorInfo))
    (sym : String) (op : OperatorInfo) (idx : Nat)
    (hna : op.n_ary = 1)
    (hbit : (op.recursive_used_cases &&& (1 <<< 0) == 0) = false) :
    generate_recursive_operator_data_by_loop atoms ops sym op idx = .ok (none, op) := by
  unfold generate_recursive_operator_data_by_loop
  simp [generate_lhs, bind, Except.bind, hna,
    check_and_set_recursion_validity, setbit_already_set op _ hbit]

/-- C6: the recursion-usage bitmask only gains bits (the updated mask is
the old one, or the old one joined with exactly the requested bit);
`set_bit_if_not_set` returns `False` and changes nothing when the bit is
already set; freshly completing mask `0b11` on a unary callee or
`0b11111111` on a binary callee clears `is_recursion_enabled`, and no
operation of the generator (`set_bit_if_not_set`,
`check_and_set_recursion_validity`,
`generate_recursive_operator_data_by_loop`) ever sets it back to true;
and a callee whose requested routing bit is already set makes
`generate_recursive_operator_data_by_loop` return no record. -/
theorem recursion_mask_saturation :
    (∀ (op : OperatorInfo) (bit : Nat),
        (op.recursive_used_cases &&& (1 <<< bit) == 0) = false →
        set_bit_if_not_set op bit = (false, op)) ∧
    (∀ (op : OperatorInfo) (bit : Nat),
        (set_bit_if_not_set op bit).2.recursive_used_cases = op.recursive_used_cases ∨
        (set_bit_if_not_set op bit).2.recursive_used_cases =
          op.recursive_used_cases ||| (1 <<< bit)) ∧
    (∀ (op : OperatorInfo) (bit : Nat),
        (set_bit_if_not_set op bit).1 = true → op.n_ary = 1 →
        (set_bit_if_not_set op bit).2.recursive_used_cases = 3 →
        (set_bit_if_not_set op bit).2.is_recursion_enabled = false) ∧
    (∀ (op : OperatorInfo) (bit : Nat),
        (set_bit_if_not_set op bit).1 = true → op.n_ary = 2 →
        (set_bit_if_not_set op bit).2.recursive_used_cases = 255 →
        (set_bit_if_not_set op bit).2.is_recursion_enabled = false) ∧
    (∀ (op : OperatorInfo) (bit : Nat),
        (set_bit_if_not_set op bit).2.is_recursion_enabled = true →
        op.is_recursion_enabled = true) ∧
    (∀ (atoms : AtomsCfg) (op : OperatorInfo) (ty : String)
        (po : Option (String × String)) (r : Option Bool) (op' : OperatorInfo),
        check_and_set_recursion_validity atoms op ty po = .ok (r, op') →
        op'.is_recursion_enabled = true → op.is_recursion_enabled = true) ∧
    (∀ (atoms : AtomsCfg) (ops : List (Int × OperatorInfo)) (sym : String)
        (op : OperatorInfo) (idx : Nat) (res : Option OperatorData)
        (op' : OperatorInfo),
        generate_recursive_operator_data_by_loop atoms ops sym op idx = .ok (res, op') →
        op'.is_recursion_enabled = true → op.is_recursion_enabled = true) ∧
    (∀ (atoms : AtomsCfg) (ops : List (Int × OperatorInfo)) (sym : String)
        (op : OperatorInfo) (idx : Nat),
        op.n_ary = 2 →
        atoms.left_operand ≠ "result" → atoms.right_operand ≠ "result" →
        atoms.left_operand ≠ atoms.right_operand →
        (op.recursive_used_cases &&& (1 <<< (idx % 5)) == 0) = false →
        generate_recursive_operator_data_by_loop atoms ops sym op idx =
          .ok (none, op)) ∧
    (∀ (atoms : AtomsCfg) (ops : List (Int × OperatorInfo)) (sym : String)
        (op : OperatorInfo) (idx : Nat),
        op.n_ary = 1 →
        (op.recursive_used_cases &&& (1 <<< 0) == 0) = false →
        generate_recursive_operator_data_by_loop atoms ops sym op idx =
          .ok (none, op)) :=
  ⟨setbit_already_set, setbit_mask_gains, setbit_disable_unary,
   setbit_disable_binary, setbit_no_reenable, checkset_no_reenable,
   genloop_no_reenable, genloop_reject_binary, genloop_reject_unary⟩

/-- The default atom symbols of the configuration. -/
def atomsDefault : AtomsCfg :=
  { left_operand := "a", right_operand := "b", left_parenthesis := "(",
    right_parenthesis := ")", equal := "=", nan_symbol := "NaN" }

/-- A unary operator whose recursion bit 0 is already used. -/
def maskedUnaryOp : OperatorInfo :=
  { id := 7, symbol := "~", n_ary := 1, unary_position := some "prefix",
    is_base := none, definition := none,
    definition_type := some "recursive_definition", priority := some 3,
    associativity_direction := none, n_order := some 2,
    op_compute_func := some "def op_7(a): return a",
    op_count_func := some "def op_count_7(a): return 0",
    dependencies := some [], recursive_used_cases := 1 }

/-- Witness for C6: a set bit is reported as such and the
recursive-by-loop candidate over that callee is rejected. -/
theorem recursion_mask_saturation_witness :
    set_bit_if_not_set maskedUnaryOp 0 = (false, maskedUnaryOp) ∧
    generate_recursive_operator_data_by_loop atomsDefault [] "@" maskedUnaryOp 3 =
      .ok (none, maskedUnaryOp) :=
  ⟨recursion_mask_saturation.1 maskedUnaryOp 0 (by decide),
   recursion_mask_saturation.2.2.2.2.2.2.2.2 atomsDefault [] "@" maskedUnaryOp 3
     rfl (by decide)⟩

/-! ### The registry state and `remove_operator` (`operator_manager.py`) -/

/-- The mutable indices of an `OperatorManager`: the id dict
(`self.operators`), the symbol index (`self.symbol_to_operators`), the
numeral-base index (`self.base_operators`) and the keys of the
compiled-procedure cache (`self.available_funcs`; its values are
callables and carry no data relevant here). -/
structure RegState where
  operators : List (Int × OperatorInfo)
  symbol_to_operators : List (String × List OperatorInfo)
  base_operators : List (Int × List OperatorInfo)
  available_funcs : List String
deriving DecidableEq

/-- `operator_manager.py`, `OperatorManager.remove_operator`: raises
`ValueError` on an unknown id; otherwise pops the id entry, pops the
two compiled-cache keys, and removes the operator object from its
symbol bucket (Python removes by object identity; entries are in sync
with the id dict whenever this runs, so value equality is used here).
`self.base_operators` is not touched. -/
def remove_operator (st : RegState) (op_id : Int) : Except String RegState :=
  if ¬ (dictKeys st.operators).contains op_id then
    .error "ValueError: Operator ID does not exist."
  else
    match dictLookup st.operators op_id with
    | none => .error "unreachable: key membership was checked above"
    | some operator =>
      let operators' := dictDel st.operators op_id
      let funcs' :=
        (st.available_funcs.erase ("op_" ++ toString operator.id)).erase
          ("op_count_" ++ toString operator.id)
      let symbols' :=
        if (st.symbol_to_operators.map Prod.fst).contains operator.symbol then
          st.symbol_to_operators.map
            (fun e => if e.1 == operator.symbol then (e.1, e.2.erase operator) else e)
        else st.symbol_to_operators
      .ok { st with
              operators := operators'
              available_funcs := funcs'
              symbol_to_operators := symbols' }

/-- A successful lookup implies key membership. -/
theorem dictLookup_contains {d : List (Int × OperatorInfo)} {k : Int} {v : OperatorInfo}
    (h : dictLookup d k = some v) : (dictKeys d).contains k = true := by
  unfold dictLookup at h
  cases hf : d.find? (fun e => e.1 == k) with
  | none => rw [hf] at h; exact absurd h (by simp)
  | some e =>
    have hmem := List.mem_of_find?_eq_some hf
    have hpred := List.find?_some hf
    have hek : e.1 = k := by simpa using hpred
    simp only [dictKeys, List.contains_eq_any_beq, List.any_eq_true]
    exact ⟨e.1, List.mem_map_of_mem Prod.fst hmem, by simp [hek]⟩

/-- Deleting a key removes it from the dict. -/
theorem dictLookup_dictDel_self (d : List (Int × OperatorInfo)) (k : Int) :
    dictLookup (dictDel d k) k = none := by
  unfold dictLookup dictDel
  simp only [Option.map_eq_none']
  rw [List.find?_eq_none]
  intro x hx
  have hx2 := (List.mem_filter.mp hx).2
  simpa using hx2

/-- Deleting a key leaves every other key's binding unchanged. -/
theorem dictLookup_dictDel_other (d : List (Int × OperatorInfo)) (k k' : Int)
    (hne : k' ≠ k) : dictLookup (dictDel d k) k' = dictLookup d k' := by
  unfold dictLookup dictDel
  induction d with
  | nil => rfl
  | cons e rest ih =>
    rw [List.filter_cons]
    by_cases hek : (e.1 == k) = true
    · have hq : (!(e.1 == k)) = false := by rw [hek]; rfl
      rw [hq, if_neg (by simp)]
      have hk'f : (e.1 == k') = false := by
        have h1 : e.1 = k := by simpa using hek
        simp [h1, Ne.symm hne]
      rw [find?_cons_eq, hk'f, cond_false]
      exact ih
    · have hq : (!(e.1 == k)) = true := by simp [hek]
      rw [hq, if_pos rfl]
      rw [find?_cons_eq, find?_cons_eq]
      cases hp : (e.1 == k') with
      | true => rfl
      | false => exact ih

/-- A numeral-base operator (base tag 2) for the C8 scenario. -/
def baseDollarOp : OperatorInfo :=
  { id := 1, symbol := "$", n_ary := 1, unary_position := some "prefix",
    is_base := some 2, definition := none, definition_type := none,
    priority := some 0, associativity_direction := none, n_order := some 1,
    op_compute_func := some "def op_1(a): return a",
    op_count_func := some "def op_count_1(a): return 0",
    dependencies := some [] }

/-- A registry holding only the base operator, indexed everywhere. -/
def regBase : RegState :=
  { operators := [(1, baseDollarOp)],
    symbol_to_operators := [("$", [baseDollarOp])],
    base_operators := [(2, [baseDollarOp])],
    available_funcs := ["op_1", "op_count_1"] }

/-- Counterexample to C8 as stated: removing the only operator (a base
operator) empties the id index, the symbol bucket and the compiled
cache, yet its entry in the numeral-base index survives — the claim
that `remove_operator` removes the operator from *every* index,
including the numeral-base index, is false. -/
theorem remove_operator_leaves_base_index :
    remove_operator regBase 1 =
      .ok { operators := [], symbol_to_operators := [("$", [])],
            base_operators := [(2, [baseDollarOp])],
            available_funcs := [] } ∧
    ¬ ((2, ([] : List OperatorInfo)) ∈
        [((2 : Int), [baseDollarOp])]) := by
  constructor
  · rfl
  · simp [baseDollarOp]

/-- C8 (amended): `remove_operator` fails with the distinct not-found
error when the id is absent; when the id exists it removes the entry
from the id index (leaving all other ids untouched), pops both compiled
entries from the procedure cache, and removes the operator from its
symbol bucket — but it leaves the numeral-base index exactly as it
was. -/
theorem remove_operator_spec :
    (∀ st op_id, (dictKeys st.operators).contains op_id = false →
        remove_operator st op_id =
          .error "ValueError: Operator ID does not exist.") ∧
    (∀ st op_id op, dictLookup st.operators op_id = some op →
        ∃ st', remove_operator st op_id = .ok st' ∧
          dictLookup st'.operators op_id = none ∧
          (∀ k, k ≠ op_id → dictLookup st'.operators k = dictLookup st.operators k) ∧
          st'.available_funcs =
            (st.available_funcs.erase ("op_" ++ toString op.id)).erase
              ("op_count_" ++ toString op.id) ∧
          st'.symbol_to_operators =
            (if (st.symbol_to_operators.map Prod.fst).contains op.symbol then
              st.symbol_to_operators.map
                (fun e => if e.1 == op.symbol then (e.1, e.2.erase op) else e)
            else st.symbol_to_operators) ∧
          st'.base_operators = st.base_operators) := by
  constructor
  · intro st op_id habs
    unfold remove_operator
    rw [habs]
    rfl
  · intro st op_id op hlook
    have hc := dictLookup_contains hlook
    refine ⟨{ st with
                operators := dictDel st.operators op_id
                available_funcs :=
                  (st.available_funcs.erase ("op_" ++ toString op.id)).erase
                    ("op_count_" ++ toString op.id)
                symbol_to_operators :=
                  if (st.symbol_to_operators.map Prod.fst).contains op.symbol then
                    st.symbol_to_operators.map
                      (fun e => if e.1 == op.symbol then (e.1, e.2.erase op) else e)
                  else st.symbol_to_operators },
      ?_, ?_, ?_, rfl, rfl, rfl⟩
    · unfold remove_operator
      rw [hc, hlook]
      rfl
    · exact dictLookup_dictDel_self st.operators op_id
    · intro k hk
      exact dictLookup_dictDel_other st.operators op_id k hk

/-- Witness for C8 (amended): `remove_operator_spec` applied to the
concrete base-operator registry, for an absent and a present id. -/
theorem remove_operator_spec_witness :
    remove_operator regBase 2 = .error "ValueError: Operator ID does not exist." ∧
    ∃ st', remove_operator regBase 1 = .ok st' ∧
      dictLookup st'.operators 1 = none ∧
      st'.base_operators = regBase.base_operators := by
  refine ⟨remove_operator_spec.1 regBase 2 rfl, ?_⟩
  obtain ⟨st', h1, h2, h3, h4, h5, h6⟩ :=
    remove_operator_spec.2 regBase 1 baseDollarOp rfl
  exact ⟨st', h1, h2, h6⟩

/-! ### Expression trees (`expression_node.py`) and the structural fold
(`expression_evaluator.py`) -/

/-- `expression_node.py`: the closed set of node kinds.  Every node
carries the `position` attribute (`None` at construction; set to
`"left"`/`"right"`/`"unary"` right after a child is attached). -/
inductive Node where
  | num (value : Int) (base : Int) (position : Option String)
  | var (v : String) (position : Option String)
  | unary (operator : OperatorInfo) (unary_expr : Node) (position : Option String)
  | binary (operator : OperatorInfo) (left_expr right_expr : Node)
      (position : Option String)
deriving DecidableEq

/-- Setting the `position` attribute after attaching a child. -/
def Node.withPosition : Node → String → Node
  | .num v b _, p => .num v b (some p)
  | .var s _, p => .var s (some p)
  | .unary op e _, p => .unary op e (some p)
  | .binary op l r _, p => .binary op l r (some p)

/-- The compiled compute/cost procedures of the operators, abstracted
from the `exec`-compiled callables (`operator_info.py`,
`get_compute_function` / `get_count_function`).  The evaluator only
applies them to non-NaN integers; each returns an integer or the
`"NaN"` sentinel. -/
structure OpSem where
  compute1 : OperatorInfo → Int → PyVal
  count1 : OperatorInfo → Int → PyVal
  compute2 : OperatorInfo → Int → Int → PyVal
  count2 : OperatorInfo → Int → Int → PyVal

/-- Python `+` restricted to the values the fold feeds it: two integers
add; adding the `"NaN"` string to an integer raises `TypeError` (the
case of two strings cannot arise in the fold, where one operand was
already checked). -/
def pyAdd : PyVal → PyVal → Except String PyVal
  | .int a, .int b => .ok (.int (a + b))
  | _, _ => .error "TypeError: unsupported operand types for +"

/-- `expression_evaluator.py`,
`ExpressionEvaluator.calculate_normalized_expansion_degree_node`: the
structural fold producing `(degree, result)`.  A number gives
`(0, value)`; a variable gives the `("NaN", "NaN")` sentinel pair; a
unary node folds the child, propagates a NaN child and otherwise
returns `(op_count + sub_degree, op_compute)` — with *no* check on the
operator's own outputs; a binary node folds both children with NaN
checks and also checks the operator's outputs. -/
def calculate_normalized_expansion_degree_node (sem : OpSem) :
    Node → Except String (PyVal × PyVal)
  | .num value _ _ => .ok (.int 0, .int value)
  | .unary operator unary_expr _ => do
    let (sub_degree, sub_result) ←
      calculate_normalized_expansion_degree_node sem unary_expr
    if sub_degree == PyVal.nan || sub_result == PyVal.nan then
      .ok (.nan, .nan)
    else
      match sub_result with
      | .int n =>
        let cur_result := sem.compute1 operator n
        let cur_degree := sem.count1 operator n
        do
          let d ← pyAdd cur_degree sub_degree
          .ok (d, cur_result)
      | .nan => .ok (.nan, .nan)
  | .binary operator left_expr right_expr _ => do
    let (left_degree, left_result) ←
      calculate_normalized_expansion_degree_node sem left_expr
    if left_degree == PyVal.nan || left_result == PyVal.nan then
      .ok (.nan, .nan)
    else do
      let (right_degree, right_result) ←
        calculate_normalized_expansion_degree_node sem right_expr
      if right_degree == PyVal.nan || right_result == PyVal.nan then
        .ok (.nan, .nan)
      else
        match left_result, right_result with
        | .int a, .int b =>
          let cur_result := sem.compute2 operator a b
          let cur_degree := sem.count2 operator a b
          if cur_degree == PyVal.nan || cur_result == PyVal.nan then
            .ok (.nan, .nan)
          else do
            let d1 ← pyAdd cur_degree left_degree
            let d2 ← pyAdd d1 right_degree
            .ok (d2, cur_result)
        | _, _ => .ok (.nan, .nan)
  | .var _ _ => .ok (.nan, .nan)

/-- A unary operator whose cost procedure legitimately returns the NaN
sentinel (per the spec, any compute/cost procedure may). -/
def nanCostSem : OpSem :=
  { compute1 := fun _ _ => .int 0
    count1 := fun _ _ => .nan
    compute2 := fun _ _ _ => .int 0
    count2 := fun _ _ _ => .int 0 }

/-- C3 (failing input): folding a unary application of an operator whose
cost procedure returns `"NaN"` over the literal 7 raises `TypeError`
(`"NaN" + 0` in `cur_degree + sub_degree`) instead of propagating NaN:
the unary branch of the fold checks only the child's components, never
the operator's own outputs, so the fold is not total and not
NaN-propagating on operator outputs. -/
theorem fold_unary_nan_cost_raises :
    calculate_normalized_expansion_degree_node nanCostSem
      (.unary maskedUnaryOp (.num 7 10 none) none) =
      .error "TypeError: unsupported operand types for +" := by
  rfl

/-! ### Serialization (`expression_evaluator.py`, `tree_to_str`) -/

/-- The statistics the evaluator accumulates during `tree_to_str`. -/
structure EvalStats where
  all_priority : List Int
  operation_count : Int
  highest_n_order : Int
  all_operators : List (Int × Int)
deriving DecidableEq

/-- `self.all_operators[node.operator.id] += 1` on the defaultdict. -/
def tallyBump (m : List (Int × Int)) (k : Int) : List (Int × Int) :=
  if (m.find? (fun e => e.1 == k)).isSome then
    m.map (fun e => if e.1 == k then (e.1, e.2 + 1) else e)
  else m ++ [(k, 1)]

/-- Python `<` on the operands the serializer compares; `None` on either
side raises `TypeError`. -/
def pyLtOptInt : Option Int → Option Int → Except String Bool
  | some a, some b => .ok (decide (a < b))
  | _, _ => .error "TypeError: < not supported between instances"

/-- The statistics block duplicated at the top of the binary and unary
branches of `tree_to_str`: record the priority (if set and unseen),
bump the operation count and the operator tally, and raise the highest
`n_order` (comparing the int against `n_order` raises `TypeError` when
the latter is `None`). -/
def statsUpdate (st : EvalStats) (op : OperatorInfo) : Except String EvalStats :=
  let ap := match op.priority with
    | some p => if p ∈ st.all_priority then st.all_priority else st.all_priority ++ [p]
    | none => st.all_priority
  let oc := st.operation_count + 1
  let ao := tallyBump st.all_operators op.id
  match op.n_order with
  | none => .error "TypeError: < not supported between instances"
  | some nn =>
    let hi := if st.highest_n_order < nn then nn else st.highest_n_order
    .ok { all_priority := ap, operation_count := oc, highest_n_order := hi,
          all_operators := ao }

/-- The serializer's fixed context: the bracket atoms, the
`with_all_brackets` flag, the numeral-base operator symbol lookup
(`operator_manager.base_operators[base]`, `None` when the assertion on
the bucket fails) and the external base converter (§6). -/
structure SerializerEnv where
  left_bracket : String
  right_bracket : String
  with_all_brackets : Bool
  base_symbol : Int → Option String
  convert : Int → Int → String

/-- `expression_evaluator.py`, `ExpressionEvaluator.tree_to_str`:
renders a node given the parent operator, threading the statistics.
Number literals render per `op_mode`/`with_base_symbol`
(`NumberNode.to_str`, `to_str_no_base_symbol` in
`expression_node.py`); variables render verbatim; binary applications
render the children with themselves as parent and decide
parenthesization from `with_all_brackets`, the priority comparison and
the associativity/position rule; unary applications are always wrapped
in literal parentheses. -/
def tree_to_str (env : SerializerEnv) (st : EvalStats) :
    Node → Option OperatorInfo → Bool → Bool → Except String (EvalStats × String)
  | .num value base _, _, with_base_symbol, op_mode =>
    if op_mode then .ok (st, toString value)
    else if with_base_symbol then
      match env.base_symbol base with
      | some sym => .ok (st, sym ++ env.convert value base)
      | none => .error "AssertionError: base operator bucket"
    else .ok (st, "$" ++ toString value ++ "$")
  | .var v _, _, _, _ => .ok (st, v)
  | .binary operator left_expr right_expr position, parent_op, wbs, om => do
    let st1 ← statsUpdate st operator
    let (st2, left_str) ← tree_to_str env st1 left_expr (some operator) wbs om
    let (st3, right_str) ← tree_to_str env st2 right_expr (some operator) wbs om
    if env.with_all_brackets then
      .ok (st3, env.left_bracket ++ left_str ++ operator.symbol ++ right_str ++
        env.right_bracket)
    else
      match parent_op with
      | some po => do
        let lt ← pyLtOptInt operator.priority po.priority
        if lt then
          .ok (st3, env.left_bracket ++ left_str ++ operator.symbol ++ right_str ++
            env.right_bracket)
        else if operator.priority == po.priority then
          if po.associativity_direction == some "left" && position == some "right" then
            .ok (st3, env.left_bracket ++ left_str ++ operator.symbol ++ right_str ++
              env.right_bracket)
          else if po.associativity_direction == some "right" && position == some "left" then
            .ok (st3, env.left_bracket ++ left_str ++ operator.symbol ++ right_str ++
              env.right_bracket)
          else
            .ok (st3, left_str ++ operator.symbol ++ right_str)
        else
          .ok (st3, left_str ++ operator.symbol ++ right_str)
      | none => .ok (st3, left_str ++ operator.symbol ++ right_str)
  | .unary operator unary_expr _, _, wbs, om => do
    let st1 ← statsUpdate st operator
    let (st2, unary_str) ← tree_to_str env st1 unary_expr (some operator) wbs om
    .ok (st2, "(" ++ operator.symbol ++ unary_str ++ ")")

/-- The bracketing rule as the specification states it, on a binary
node with priority `p`, recorded child position `position`, under a
parent of priority `pp` and associativity `assoc` (or no parent):
bracket iff `with_all_brackets`, or strictly lower priority than the
parent, or equal priority with the parent's associativity disagreeing
with the position. -/
def spec_brackets (with_all : Bool) (p : Int) (position : Option String)
    (parent : Option (Int × Option String)) : Bool :=
  with_all ||
    match parent with
    | none => false
    | some (pp, assoc) =>
      decide (p < pp) ||
        (decide (p = pp) &&
          ((assoc == some "left" && position == some "right") ||
           (assoc == some "right" && position == some "left")))

/-- C5: given that the statistics update and both child renderings
succeed, a binary node with priority `p` is rendered bracketed exactly
when the specification's rule `spec_brackets` says so — under a parent
with an assigned priority, and at the root (where, without
`with_all_brackets`, it is never bracketed); in particular a node of
strictly greater priority than its parent is never bracketed without
`with_all_brackets`. -/
theorem tree_to_str_bracketing (env : SerializerEnv) (st st1 st2 st3 : EvalStats)
    (op po : OperatorInfo) (l r : Node) (position : Option String)
    (wbs om : Bool) (ls rs : String) (p pp : Int)
    (hp : op.priority = some p) (hpp : po.priority = some pp)
    (h1 : statsUpdate st op = .ok st1)
    (h2 : tree_to_str env st1 l (some op) wbs om = .ok (st2, ls))
    (h3 : tree_to_str env st2 r (some op) wbs om = .ok (st3, rs)) :
    (tree_to_str env st (.binary op l r position) (some po) wbs om =
      .ok (st3,
        if spec_brackets env.with_all_brackets p position
            (some (pp, po.associativity_direction)) then
          env.left_bracket ++ ls ++ op.symbol ++ rs ++ env.right_bracket
        else
          ls ++ op.symbol ++ rs)) ∧
    (tree_to_str env st (.binary op l r position) none wbs om =
      .ok (st3,
        if env.with_all_brackets then
          env.left_bracket ++ ls ++ op.symbol ++ rs ++ env.right_bracket
        else
          ls ++ op.symbol ++ rs)) ∧
    (env.with_all_brackets = false → pp < p →
      tree_to_str env st (.binary op l r position) (some po) wbs om =
        .ok (st3, ls ++ op.symbol ++ rs)) := by
  have hbase : ∀ pa, tree_to_str env st (.binary op l r position) pa wbs om =
      (do
        if env.with_all_brackets then
          Except.ok (st3, env.left_bracket ++ ls ++ op.symbol ++ rs ++ env.right_bracket)
        else
          match pa with
          | some po' => do
            let lt ← pyLtOptInt op.priority po'.priority
            if lt then
              Except.ok (st3, env.left_bracket ++ ls ++ op.symbol ++ rs ++ env.right_bracket)
            else if op.priority == po'.priority then
              if po'.associativity_direction == some "left" && position == some "right" then
                Except.ok (st3, env.left_bracket ++ ls ++ op.symbol ++ rs ++ env.right_bracket)
              else if po'.associativity_direction == some "right" && position == some "left" then
                Except.ok (st3, env.left_bracket ++ ls ++ op.symbol ++ rs ++ env.right_bracket)
              else
                Except.ok (st3, ls ++ op.symbol ++ rs)
            else
              Except.ok (st3, ls ++ op.symbol ++ rs)
          | none => Except.ok (st3, ls ++ op.symbol ++ rs)) := by
    intro pa
    rw [tree_to_str]
    simp only [h1, h2, h3, bind, Except.bind]
  refine ⟨?_, ?_, ?_⟩
  · rw [hbase (some po)]
    by_cases hw : env.with_all_brackets
    · simp [hw, spec_brackets]
    · simp only [Bool.not_eq_true] at hw
      simp only [hw, Bool.false_eq_true, if_false, hp, hpp, pyLtOptInt, bind,
        Except.bind, spec_brackets, Bool.false_or]
      by_cases hlt : p < pp
      · simp [hlt]
      · simp only [hlt, decide_eq_false, Bool.false_or, if_false]
        by_cases heq : p = pp
        · simp only [heq, decide_eq_true_eq, Bool.true_and, beq_iff_eq,
            Option.some.injEq, if_pos rfl, eq_self_iff_true, decide_eq_true]
          by_cases ha1 : (po.associativity_direction == some "left" &&
              position == some "right") = true
          · simp [ha1]
          · simp only [ha1, Bool.false_eq_true, if_false, Bool.false_or]
            by_cases ha2 : (po.associativity_direction == some "right" &&
                position == some "left") = true
            · simp [ha2]
            · simp [ha2]
        · simp [heq, Ne.symm heq]
  · rw [hbase none]
    by_cases hw : env.with_all_brackets <;> simp [hw]
  · intro hw hgt
    rw [hbase (some po)]
    simp only [hw, Bool.false_eq_true, if_false, hp, hpp, pyLtOptInt, bind, Except.bind]
    have hlt : ¬ p < pp := by omega
    have hne : ¬ p = pp := by omega
    simp [hlt, hne]

/-- `+` with its order assigned (as after `calculate_order`). -/
def plusOp1 : OperatorInfo := { plusOp with n_order := some 1 }

/-- `*` with its order assigned. -/
def timesOp1 : OperatorInfo := { timesOp with n_order := some 1 }

/-- A serializer context with parenthesis atoms and minimal brackets. -/
def env0 : SerializerEnv :=
  { left_bracket := "(", right_bracket := ")", with_all_brackets := false,
    base_symbol := fun _ => none, convert := fun _ _ => "" }

/-- Fresh statistics. -/
def statsZero : EvalStats :=
  { all_priority := [], operation_count := 0, highest_n_order := 0,
    all_operators := [] }

/-- Statistics after visiting the `+` node once. -/
def statsPlus : EvalStats :=
  { all_priority := [1], operation_count := 1, highest_n_order := 1,
    all_operators := [(1, 1)] }

/-- Witness for C5: `2+3` as the left child of `*` (priority 1 under
priority 2) is bracketed, per `tree_to_str_bracketing`. -/
theorem tree_to_str_bracketing_witness :
    tree_to_str env0 statsZero
      (.binary plusOp1 (.num 2 10 (some "left")) (.num 3 10 (some "right"))
        (some "left"))
      (some timesOp1) true true = .ok (statsPlus, "(2+3)") := by
  have h := (tree_to_str_bracketing env0 statsZero statsPlus statsPlus statsPlus
    plusOp1 timesOp1 (.num 2 10 (some "left")) (.num 3 10 (some "right"))
    (some "left") true true "2" "3" 1 2 rfl rfl rfl rfl rfl).1
  simpa using h

/-! ### Evaluator instance state, `init_expr`, `calculate_result`
(`expression_evaluator.py`) -/

/-- The mutable fields of an `ExpressionEvaluator` instance.  The two
cached fields `normalized_expansion_degree` and `expr_result` are
absent (`hasattr` false) until first computed — modelled as `Option`.
The serializer context (atoms, `with_all_brackets`, manager, converter)
is the `SerializerEnv` parameter of the operations. -/
structure EvaluatorState where
  id : Option Int
  expression_tree : Option Node
  expression_str : Option String
  expression_str_no_base_symbol : Option String
  all_priority : List Int
  operation_count : Int
  highest_n_order : Int
  all_operators : List (Int × Int)
  normalized_expansion_degree : Option PyVal
  expr_result : Option PyVal
deriving DecidableEq

/-- The statistics slice of the evaluator state. -/
def statsOf (st : EvaluatorState) : EvalStats :=
  { all_priority := st.all_priority, operation_count := st.operation_count,
    highest_n_order := st.highest_n_order, all_operators := st.all_operators }

/-- `expression_evaluator.py`, `ExpressionEvaluator.init_expr`: stores
the id and the tree, resets the four statistics, and renders the
expression string(s); `op_mode` renders once, otherwise the tree is
rendered twice (with and without base symbols).  The two cached fields
are not touched.  (The statistics read by `tree_to_str` are the ones
just reset, i.e. `statsZero`.) -/
def init_expr (env : SerializerEnv) (st : EvaluatorState) (expression_tree : Node)
    (eid : Int) (op_mode : Bool) : Except String EvaluatorState :=
  let stA := { st with
                 id := some eid
                 expression_tree := some expression_tree
                 all_priority := ([] : List Int)
                 operation_count := (0 : Int)
                 highest_n_order := (0 : Int)
                 all_operators := ([] : List (Int × Int)) }
  if op_mode then do
    let (s1, str1) ← tree_to_str env statsZero expression_tree none true true
    .ok { stA with
            all_priority := s1.all_priority
            operation_count := s1.operation_count
            highest_n_order := s1.highest_n_order
            all_operators := s1.all_operators
            expression_str := some str1 }
  else do
    let (s1, str1) ← tree_to_str env statsZero expression_tree none true false
    let (s2, str2) ← tree_to_str env s1 expression_tree none false false
    .ok { stA with
            all_priority := s2.all_priority
            operation_count := s2.operation_count
            highest_n_order := s2.highest_n_order
            all_operators := s2.all_operators
            expression_str := some str1
            expression_str_no_base_symbol := some str2 }

/-- What `calculate_result` / `calculate_normalized_expansion_degree`
hand back: the integer, or the configured NaN symbol
(`self.atoms["NaN"]`). -/
inductive DisplayVal where
  | num (n : Int)
  | nanSym (s : String)
deriving DecidableEq

/-- `x if x != "NaN" else self.atoms["NaN"]`. -/
def displayOf (nan_symbol : String) : PyVal → DisplayVal
  | .int n => .num n
  | .nan => .nanSym nan_symbol

/-- `expression_evaluator.py`, `ExpressionEvaluator.calculate_result`:
returns the cached `expr_result` when present; otherwise folds the
current tree, fills both caches, and returns the result. -/
def calculate_result (sem : OpSem) (nan_symbol : String) (st : EvaluatorState) :
    Except String (DisplayVal × EvaluatorState) :=
  match st.expr_result with
  | some r => .ok (displayOf nan_symbol r, st)
  | none =>
    match st.expression_tree with
    | none => .error "NotImplementedError: no expression tree"
    | some t => do
      let (degree, result) ← calculate_normalized_expansion_degree_node sem t
      .ok (displayOf nan_symbol result,
        { st with normalized_expansion_degree := some degree,
                  expr_result := some result })

/-- `expression_evaluator.py`,
`ExpressionEvaluator.calculate_normalized_expansion_degree`: the same
caching scheme keyed on `normalized_expansion_degree`. -/
def calculate_normalized_expansion_degree (sem : OpSem) (nan_symbol : String)
    (st : EvaluatorState) : Except String (DisplayVal × EvaluatorState) :=
  match st.normalized_expansion_degree with
  | some d => .ok (displayOf nan_symbol d, st)
  | none =>
    match st.expression_tree with
    | none => .error "NotImplementedError: no expression tree"
    | some t => do
      let (degree, result) ← calculate_normalized_expansion_degree_node sem t
      .ok (displayOf nan_symbol degree,
        { st with normalized_expansion_degree := some degree,
                  expr_result := some result })


/-- C10: `init_expr` never touches the two cached fields; the statistics
it produces do not depend on the prior statistics (they are reset and
recomputed from the new tree); consequently, after `calculate_result`
has filled the cache once, running `init_expr` with any other tree and
then `calculate_result` again returns exactly the value cached for the
earlier tree, with the state unchanged. -/
theorem init_expr_keeps_cached_result :
    (∀ env st t eid om st', init_expr env st t eid om = .ok st' →
        st'.expr_result = st.expr_result ∧
        st'.normalized_expansion_degree = st.normalized_expansion_degree) ∧
    (∀ env stA stB t eidA eidB om stA' stB',
        init_expr env stA t eidA om = .ok stA' →
        init_expr env stB t eidB om = .ok stB' →
        statsOf stA' = statsOf stB' ∧ stA'.expression_str = stB'.expression_str) ∧
    (∀ env sem nan_symbol st t1 t2 eid1 eid2 om1 om2 st1 dv1 st2 st3,
        init_expr env st t1 eid1 om1 = .ok st1 →
        calculate_result sem nan_symbol st1 = .ok (dv1, st2) →
        init_expr env st2 t2 eid2 om2 = .ok st3 →
        calculate_result sem nan_symbol st3 = .ok (dv1, st3)) := by
  have part1 : ∀ env st t eid om st', init_expr env st t eid om = .ok st' →
      st'.expr_result = st.expr_result ∧
      st'.normalized_expansion_degree = st.normalized_expansion_degree := by
    intro env st t eid om st' h
    unfold init_expr at h
    cases om with
    | true =>
      simp only [if_true, bind, Except.bind] at h
      cases h1 : tree_to_str env statsZero t none true true with
      | error e => rw [h1] at h; exact absurd h (by simp)
      | ok out =>
        obtain ⟨s1, str1⟩ := out
        rw [h1] at h
        simp only [] at h
        injection h with h'
        subst h'
        exact ⟨rfl, rfl⟩
    | false =>
      simp only [Bool.false_eq_true, if_false, bind, Except.bind] at h
      cases h1 : tree_to_str env statsZero t none true false with
      | error e => rw [h1] at h; exact absurd h (by simp)
      | ok out =>
        obtain ⟨s1, str1⟩ := out
        rw [h1] at h
        simp only [] at h
        cases h2 : tree_to_str env s1 t none false false with
        | error e => rw [h2] at h; exact absurd h (by simp)
        | ok out2 =>
          obtain ⟨s2, str2⟩ := out2
          rw [h2] at h
          simp only [] at h
          injection h with h'
          subst h'
          exact ⟨rfl, rfl⟩
  refine ⟨part1, ?_, ?_⟩
  · intro env stA stB t eidA eidB om stA' stB' hA hB
    unfold init_expr at hA hB
    cases om with
    | true =>
      simp only [if_true, bind, Except.bind] at hA hB
      cases h1 : tree_to_str env statsZero t none true true with
      | error e => rw [h1] at hA; exact absurd hA (by simp)
      | ok out =>
        obtain ⟨s1, str1⟩ := out
        rw [h1] at hA hB
        simp only [] at hA hB
        injection hA with hA'
        injection hB with hB'
        subst hA'
        subst hB'
        exact ⟨rfl, rfl⟩
    | false =>
      simp only [Bool.false_eq_true, if_false, bind, Except.bind] at hA hB
      cases h1 : tree_to_str env statsZero t none true false with
      | error e => rw [h1] at hA; exact absurd hA (by simp)
      | ok out =>
        obtain ⟨s1, str1⟩ := out
        rw [h1] at hA hB
        simp only [] at hA hB
        cases h2 : tree_to_str env s1 t none false false with
        | error e => rw [h2] at hA; exact absurd hA (by simp)
        | ok out2 =>
          obtain ⟨s2, str2⟩ := out2
          rw [h2] at hA hB
          simp only [] at hA hB
          injection hA with hA'
          injection hB with hB'
          subst hA'
          subst hB'
          exact ⟨rfl, rfl⟩
  · intro env sem nan_symbol st t1 t2 eid1 eid2 om1 om2 st1 dv1 st2 st3 h1 h2 h3
    have hcache : ∃ v, st2.expr_result = some v ∧ dv1 = displayOf nan_symbol v := by
      unfold calculate_result at h2
      cases hrc : st1.expr_result with
      | some r =>
        rw [hrc] at h2
        injection h2 with h'
        have e1 : dv1 = displayOf nan_symbol r := (congrArg Prod.fst h').symm
        have e2 : st2 = st1 := (congrArg Prod.snd h').symm
        exact ⟨r, by rw [e2, hrc], e1⟩
      | none =>
        rw [hrc] at h2
        cases hct : st1.expression_tree with
        | none => rw [hct] at h2; exact absurd h2 (by simp)
        | some t =>
          rw [hct] at h2
          simp only [bind, Except.bind] at h2
          cases hfold : calculate_normalized_expansion_degree_node sem t with
          | error e => rw [hfold] at h2; exact absurd h2 (by simp)
          | ok dr =>
            obtain ⟨deg, res⟩ := dr
            rw [hfold] at h2
            simp only [] at h2
            injection h2 with h'
            have e1 : displayOf nan_symbol res = dv1 := congrArg Prod.fst h'
            have e2 : ({ st1 with
                           expression_tree := some t
                           normalized_expansion_degree := some deg
                           expr_result := some res } : EvaluatorState) = st2 :=
              congrArg Prod.snd h'
            exact ⟨res, by rw [← e2], e1.symm⟩
    obtain ⟨v, hv, hdv⟩ := hcache
    have h31 := (part1 env st2 t2 eid2 om2 st3 h3).1
    unfold calculate_result
    rw [h31, hv, hdv]

/-- A fresh evaluator state. -/
def evalSt0 : EvaluatorState :=
  { id := none, expression_tree := none, expression_str := none,
    expression_str_no_base_symbol := none, all_priority := [],
    operation_count := 0, highest_n_order := 0, all_operators := [],
    normalized_expansion_degree := none, expr_result := none }

/-- After `init_expr` with the literal 5 (op mode). -/
def evalSt1 : EvaluatorState :=
  { evalSt0 with
      id := some 1
      expression_tree := some (.num 5 10 none)
      expression_str := some "5" }

/-- After the first `calculate_result` (caches filled for the tree `5`). -/
def evalSt2 : EvaluatorState :=
  { evalSt1 with
      normalized_expansion_degree := some (.int 0)
      expr_result := some (.int 5) }

/-- After `init_expr` with the different literal 7: the cache survives. -/
def evalSt3 : EvaluatorState :=
  { evalSt2 with
      id := some 2
      expression_tree := some (.num 7 10 none)
      expression_str := some "7" }

/-- Witness for C10: the second `calculate_result`, run after the tree
was replaced by `7`, still returns the value 5 cached for the earlier
tree. -/
theorem init_expr_keeps_cached_result_witness :
    calculate_result nanCostSem "NaN" evalSt3 = .ok (.num 5, evalSt3) :=
  init_expr_keeps_cached_result.2.2 env0 nanCostSem "NaN" evalSt0
    (.num 5 10 none) (.num 7 10 none) 1 2 true true evalSt1 (.num 5) evalSt2
    evalSt3 (by rfl) (by rfl) (by rfl)

/-! ### Random expression generation (`expression_generator.py`) -/

/-- The generator's configuration: the variable set (`self.variables`,
from the `expr_variables` key; renamed here because `variables` is a
reserved word), the numeric range, the maximal base, the category and
atom-type weights, and the three operator pools. -/
structure GenConfig where
  expr_variables : List String
  min_value : Int
  max_value : Int
  max_base : Int
  w_binary : Nat
  w_unary_pre : Nat
  w_unary_post : Nat
  w_atoms : Nat
  w_variable : Nat
  w_number : Nat
  binary_ops : List OperatorInfo
  unary_pre_ops : List OperatorInfo
  unary_post_ops : List OperatorInfo

/-- `random.choice(l)`: raises `IndexError` on an empty list; otherwise
the oracle number selects an element (every element is reachable). -/
def pyChoice {α : Type} (l : List α) (oracle : List Nat) :
    Except String (α × List Nat) :=
  match l with
  | [] => .error "IndexError: list index out of range"
  | x :: xs =>
    match oracle with
    | [] => .ok (x, [])
    | n :: rest => .ok ((x :: xs).getD (n % (xs.length + 1)) x, rest)

/-- `random.choices(items, weights)[0]`: raises when the total weight is
not positive; otherwise the oracle selects among the items of positive
weight (exactly the support of the distribution). -/
def pyChoices {α : Type} (items : List α) (weights : List Nat)
    (oracle : List Nat) : Except String (α × List Nat) :=
  let support := ((items.zip weights).filter (fun p => 0 < p.2)).map Prod.fst
  match support with
  | [] => .error "ValueError: total of weights must be greater than zero"
  | x :: xs =>
    match oracle with
    | [] => .ok (x, [])
    | n :: rest => .ok ((x :: xs).getD (n % (xs.length + 1)) x, rest)

/-- `random.randint(a, b)`: raises when the range is empty; otherwise
the oracle selects a value in `[a, b]`. -/
def pyRandint (a b : Int) (oracle : List Nat) : Except String (Int × List Nat) :=
  if b < a then .error "ValueError: empty range for randrange"
  else
    match oracle with
    | [] => .ok (a, [])
    | n :: rest => .ok (a + (n : Int) % (b - a + 1), rest)

/-- `expression_generator.py`, `ExpressionGenerator.generate_atoms`:
a variable, a number with an independently drawn base in
`[2, max_base]`, or a weighted draw between the two; an unknown
`atom_choice` raises `ValueError`. -/
def generate_atoms (cfg : GenConfig) (atom_choice : String) (oracle : List Nat) :
    Except String (Node × List Nat) :=
  if atom_choice == "variable" then do
    let (v, o1) ← pyChoice cfg.expr_variables oracle
    .ok (.var v none, o1)
  else if atom_choice == "number" then do
    let (value, o1) ← pyRandint cfg.min_value cfg.max_value oracle
    let (base, o2) ← pyRandint 2 cfg.max_base o1
    .ok (.num value base none, o2)
  else if atom_choice == "variable_and_number" then do
    let (atoms_type, o1) ←
      pyChoices ["variable", "number"] [cfg.w_variable, cfg.w_number] oracle
    if atoms_type == "variable" then do
      let (v, o2) ← pyChoice cfg.expr_variables o1
      .ok (.var v none, o2)
    else do
      let (value, o2) ← pyRandint cfg.min_value cfg.max_value o1
      let (base, o3) ← pyRandint 2 cfg.max_base o2
      .ok (.num value base none, o3)
  else
    .error "ValueError: Unknown atom_choice value"

/-- `expression_generator.py`, `ExpressionGenerator.generate_expression`.
At or beyond the depth bound an atom is generated; otherwise a weighted
category draw dispatches to the binary/unary/atom constructions, where
an empty pool retries at the same depth and parameters.  The Python
recursion carries no fuel; the `Nat` argument only bounds the model's
recursion and is not part of the code (theorems supply enough of it).
The value `none` is Python's `None`: the `unary_postfix` branch of the
source builds its node and falls off the function without returning it,
and a `None` child makes the parent's `position` assignment raise
`AttributeError`. -/
def generate_expression (cfg : GenConfig) :
    Nat → Int → Int → String → List Nat →
    Except String (Option Node × List Nat)
  | 0, _, _, _, _ => .error "model artifact: recursion fuel exhausted"
  | Nat.succ fuel, cur_depth, max_depth, atom_choice, oracle =>
    if max_depth ≤ cur_depth then do
      let (expr_node, o1) ← generate_atoms cfg atom_choice oracle
      .ok (some expr_node, o1)
    else do
      let (expr_type, o1) ←
        pyChoices ["binary", "unary_prefix", "unary_postfix", "atoms"]
          [cfg.w_binary, cfg.w_unary_pre, cfg.w_unary_post, cfg.w_atoms] oracle
      if expr_type == "binary" then
        if cfg.binary_ops.isEmpty then
          generate_expression cfg fuel cur_depth max_depth atom_choice o1
        else do
          let (select_op, o2) ← pyChoice cfg.binary_ops o1
          let (ln, o3) ←
            generate_expression cfg fuel (cur_depth + 1) max_depth atom_choice o2
          match ln with
          | none => .error "AttributeError: NoneType has no attribute position"
          | some lnode => do
            let (rn, o4) ←
              generate_expression cfg fuel (cur_depth + 1) max_depth atom_choice o3
            match rn with
            | none => .error "AttributeError: NoneType has no attribute position"
            | some rnode =>
              .ok (some (.binary select_op (lnode.withPosition "left")
                (rnode.withPosition "right") none), o4)
      else if expr_type == "unary_prefix" then
        if cfg.unary_pre_ops.isEmpty then
          generate_expression cfg fuel cur_depth max_depth atom_choice o1
        else do
          let (select_op, o2) ← pyChoice cfg.unary_pre_ops o1
          if select_op.is_base.isSome then
            .error "exit(1)"
          else do
            let (cn, o3) ←
              generate_expression cfg fuel (cur_depth + 1) max_depth atom_choice o2
            match cn with
            | none => .error "AttributeError: NoneType has no attribute position"
            | some cnode =>
              .ok (some (.unary select_op (cnode.withPosition "unary") none), o3)
      else if expr_type == "unary_postfix" then
        if cfg.unary_post_ops.isEmpty then
          generate_expression cfg fuel cur_depth max_depth atom_choice o1
        else do
          let (_select_op, o2) ← pyChoice cfg.unary_post_ops o1
          let (cn, o3) ←
            generate_expression cfg fuel (cur_depth + 1) max_depth atom_choice o2
          match cn with
          | none => .error "AttributeError: NoneType has no attribute position"
          | some _cnode =>
            .ok (none, o3)
      else if expr_type == "atoms" then do
        let (expr_node, o1') ← generate_atoms cfg atom_choice o1
        .ok (some expr_node, o1')
      else
        .ok (none, o1)

/-- A postfix unary operator for the C7 scenario. -/
def postfixFactOp : OperatorInfo :=
  { id := 3, symbol := "!", n_ary := 1, unary_position := some "postfix",
    is_base := none, definition := none,
    definition_type := some "simple_definition", priority := some 4,
    associativity_direction := none, n_order := some 1,
    op_compute_func := some "def op_3(a): return a",
    op_count_func := some "def op_count_3(a): return 0",
    dependencies := some [] }

/-- A generator configuration with a non-empty postfix pool and all
category weights positive. -/
def cfg7 : GenConfig :=
  { expr_variables := ["x"], min_value := 0, max_value := 9, max_base := 10,
    w_binary := 1, w_unary_pre := 1, w_unary_post := 1, w_atoms := 1,
    w_variable := 1, w_number := 1, binary_ops := [timesOp1],
    unary_pre_ops := [], unary_post_ops := [postfixFactOp] }

/-- C7 (failing input): below the depth bound, a `unary_postfix` draw
with a non-empty postfix pool picks the operator, builds the child (the
literal 5 at depth 1 = max_depth) and tags it — but the branch is
missing its `return`, so the call returns `None` instead of the unary
application node.  The oracle draws: category index 2 (`unary_postfix`),
pool index 0, child value 5, child base 2. -/
theorem generate_expression_postfix_returns_none :
    generate_expression cfg7 10 0 1 "number" [2, 0, 5, 0] = .ok (none, []) := by
  rfl

/-! ### Cascading deletion (`operator_manager.py`,
`_find_all_dependent_operator_ids` / `delete_one_operator_by_dep`) -/

/-- `op_id in operator.dependencies`.  (On `dependencies = None` Python
would raise `TypeError`; the theorems below restrict to registries whose
dependency lists are extracted, where the check is list membership.) -/
def depMem (x : Int) (op : OperatorInfo) : Bool :=
  match op.dependencies with
  | none => false
  | some l => l.contains x

mutual

/-- `operator_manager.py`,
`OperatorManager._find_all_dependent_operator_ids`: return early if
`op_id` is already marked, otherwise mark it and scan every registry
operator, recursing into those whose dependency list mentions `op_id`.
The marked set is the list `s` in insertion order.  The Python
recursion carries no fuel; the `Nat` argument only bounds the model's
recursion (`none` = fuel exhausted, proven unreachable for fuel
exceeding the number of unmarked keys). -/
def visit (ops : List (Int × OperatorInfo)) (fuel : Nat) (op_id : Int)
    (s : List Int) : Option (List Int) :=
  match fuel with
  | 0 => none
  | Nat.succ f =>
    if op_id ∈ s then some s
    else visitFold ops f (dictValues ops) op_id (s ++ [op_id])
termination_by (fuel, 0)

/-- The `for operator in self.operators.values()` loop of
`_find_all_dependent_operator_ids`, threading the marked set. -/
def visitFold (ops : List (Int × OperatorInfo)) (fuel : Nat)
    (vals : List OperatorInfo) (op_id : Int) (s : List Int) :
    Option (List Int) :=
  match vals with
  | [] => some s
  | op :: rest =>
    if depMem op_id op then
      match visit ops fuel op.id s with
      | none => none
      | some s' => visitFold ops fuel rest op_id s'
    else visitFold ops fuel rest op_id s
termination_by (fuel, vals.length + 1)

end

/-- `operator_manager.py`, `OperatorManager.delete_one_operator_by_dep`:
raises on an unknown id, collects the transitive dependents with
`_find_all_dependent_operator_ids`, and removes each of them with
`remove_operator`.  (Python iterates the collected `set`; removals are
independent, so the model iterates the collection order.) -/
def delete_one_operator_by_dep (st : RegState) (op_id : Int) :
    Except String RegState :=
  if ¬ (dictKeys st.operators).contains op_id then
    .error "ValueError: Operator ID does not exist."
  else
    match visit st.operators (st.operators.length + 1) op_id [] with
    | none => .error "model artifact: traversal fuel exhausted"
    | some to_delete_ids => to_delete_ids.foldlM remove_operator st

/-- One reverse dependency edge: some registry operator with id `b`
lists `a` among its dependencies (`b` depends on `a`). -/
def dependsEdge (ops : List (Int × OperatorInfo)) (a b : Int) : Prop :=
  ∃ op ∈ dictValues ops, op.id = b ∧ depMem a op = true

/-- `y` is reverse-reachable from `x`: `y = x`, or `y` transitively
depends on `x` through registry operators. -/
def reverseReachable (ops : List (Int × OperatorInfo)) (x y : Int) : Prop :=
  Relation.ReflTransGen (dependsEdge ops) x y

/-- The marked set only grows (by a suffix) through `visit` and
`visitFold`. -/
theorem visit_extends (fuel : Nat) :
    (∀ ops op_id s t, visit ops fuel op_id s = some t → ∃ u, t = s ++ u) ∧
    (∀ ops vals op_id s t, visitFold ops fuel vals op_id s = some t →
      ∃ u, t = s ++ u) := by
  induction fuel with
  | zero =>
    constructor
    · intro ops op_id s t h
      simp [visit] at h
    · intro ops vals op_id s t h
      induction vals generalizing s with
      | nil =>
        simp only [visitFold] at h
        exact ⟨[], by simpa using h.symm⟩
      | cons op rest ih =>
        simp only [visitFold] at h
        by_cases hd : depMem op_id op = true
        · rw [if_pos hd] at h
          simp [visit] at h
        · rw [if_neg hd] at h
          exact ih s h
  | succ f ihf =>
    have hv : ∀ ops op_id s t, visit ops (f + 1) op_id s = some t →
        ∃ u, t = s ++ u := by
      intro ops op_id s t h
      simp only [visit] at h
      by_cases hm : op_id ∈ s
      · rw [if_pos hm] at h
        exact ⟨[], by simpa using h.symm⟩
      · rw [if_neg hm] at h
        obtain ⟨u, hu⟩ := ihf.2 ops (dictValues ops) op_id (s ++ [op_id]) t h
        exact ⟨op_id :: u, by simpa using hu⟩
    refine ⟨hv, ?_⟩
    intro ops vals op_id s t h
    induction vals generalizing s with
    | nil =>
      simp only [visitFold] at h
      exact ⟨[], by simpa using h.symm⟩
    | cons op rest ih =>
      simp only [visitFold] at h
      by_cases hd : depMem op_id op = true
      · rw [if_pos hd] at h
        cases hv1 : visit ops (f + 1) op.id s with
        | none => rw [hv1] at h; exact absurd h (by simp)
        | some s' =>
          rw [hv1] at h
          obtain ⟨u1, hu1⟩ := hv ops op.id s s' hv1
          obtain ⟨u2, hu2⟩ := ih s' h
          exact ⟨u1 ++ u2, by rw [hu2, hu1, List.append_assoc]⟩
      · rw [if_neg hd] at h
        exact ih s h

/-- A successful `visit` marks its argument. -/
theorem visit_mem {ops : List (Int × OperatorInfo)} {fuel : Nat} {op_id : Int}
    {s t : List Int} (h : visit ops fuel op_id s = some t) : op_id ∈ t := by
  cases fuel with
  | zero => simp [visit] at h
  | succ f =>
    simp only [visit] at h
    by_cases hm : op_id ∈ s
    · rw [if_pos hm] at h
      injection h with h'
      exact h' ▸ hm
    · rw [if_neg hm] at h
      obtain ⟨u, hu⟩ := (visit_extends f).2 ops (dictValues ops) op_id
        (s ++ [op_id]) t h
      rw [hu]
      simp

/-- Everything `visit` marks beyond the incoming set is
reverse-reachable from the start whenever the visited id is. -/
theorem visit_sound (X : Int) (fuel : Nat) :
    (∀ ops op_id s t, visit ops fuel op_id s = some t →
      reverseReachable ops X op_id →
      (∀ a ∈ s, reverseReachable ops X a) →
      ∀ a ∈ t, reverseReachable ops X a) ∧
    (∀ ops vals op_id s t, visitFold ops fuel vals op_id s = some t →
      reverseReachable ops X op_id →
      (∀ op ∈ vals, op ∈ dictValues ops) →
      (∀ a ∈ s, reverseReachable ops X a) →
      ∀ a ∈ t, reverseReachable ops X a) := by
  induction fuel with
  | zero =>
    constructor
    · intro ops op_id s t h
      simp [visit] at h
    · intro ops vals op_id s t h hr hsub hs
      induction vals generalizing s with
      | nil =>
        simp only [visitFold] at h
        injection h with h'
        exact h' ▸ hs
      | cons op rest ih =>
        simp only [visitFold] at h
        by_cases hd : depMem op_id op = true
        · rw [if_pos hd] at h
          simp [visit] at h
        · rw [if_neg hd] at h
          exact ih s h (fun op' h' => hsub op' (List.mem_cons_of_mem op h')) hs
  | succ f ihf =>
    have hv : ∀ ops op_id s t, visit ops (f + 1) op_id s = some t →
        reverseReachable ops X op_id →
        (∀ a ∈ s, reverseReachable ops X a) →
        ∀ a ∈ t, reverseReachable ops X a := by
      intro ops op_id s t h hr hs
      simp only [visit] at h
      by_cases hm : op_id ∈ s
      · rw [if_pos hm] at h
        injection h with h'
        exact h' ▸ hs
      · rw [if_neg hm] at h
        refine ihf.2 ops (dictValues ops) op_id (s ++ [op_id]) t h hr
          (fun op h' => h') ?_
        intro a ha
        rcases List.mem_append.mp ha with h1 | h2
        · exact hs a h1
        · rwa [show a = op_id by simpa using h2]
    refine ⟨hv, ?_⟩
    intro ops vals op_id s t h hr hsub hs
    induction vals generalizing s with
    | nil =>
      simp only [visitFold] at h
      injection h with h'
      exact h' ▸ hs
    | cons op rest ih =>
      simp only [visitFold] at h
      by_cases hd : depMem op_id op = true
      · rw [if_pos hd] at h
        cases hv1 : visit ops (f + 1) op.id s with
        | none => rw [hv1] at h; exact absurd h (by simp)
        | some s' =>
          rw [hv1] at h
          have hrop : reverseReachable ops X op.id :=
            Relation.ReflTransGen.tail hr
              ⟨op, hsub op (List.mem_cons_self op rest), rfl, hd⟩
          have hs' : ∀ a ∈ s', reverseReachable ops X a :=
            hv ops op.id s s' hv1 hrop hs
          exact ih s' h (fun op' h' => hsub op' (List.mem_cons_of_mem op h')) hs'
      · rw [if_neg hd] at h
        exact ih s h (fun op' h' => hsub op' (List.mem_cons_of_mem op h')) hs

/-- The marked set a successful traversal returns is closed under the
reverse dependency edges: every operator depending on a marked id
(marked beyond the incoming set) is marked too. -/
theorem visit_closed (fuel : Nat) :
    (∀ ops op_id s t, visit ops fuel op_id s = some t →
      ∀ a ∈ t, a ∉ s →
        ∀ op ∈ dictValues ops, depMem a op = true → op.id ∈ t) ∧
    (∀ ops vals op_id s t, visitFold ops fuel vals op_id s = some t →
      (∀ a ∈ t, a ∉ s →
        ∀ op ∈ dictValues ops, depMem a op = true → op.id ∈ t) ∧
      (∀ op ∈ vals, depMem op_id op = true → op.id ∈ t)) := by
  induction fuel with
  | zero =>
    constructor
    · intro ops op_id s t h
      simp [visit] at h
    · intro ops vals op_id s t h
      induction vals generalizing s with
      | nil =>
        simp only [visitFold] at h
        injection h with h'
        subst h'
        exact ⟨fun a ha hna _ _ _ => absurd ha hna, fun op hop => by simp at hop⟩
      | cons op rest ih =>
        simp only [visitFold] at h
        by_cases hd : depMem op_id op = true
        · rw [if_pos hd] at h
          simp [visit] at h
        · rw [if_neg hd] at h
          obtain ⟨hi, hii⟩ := ih s h
          refine ⟨hi, ?_⟩
          intro op' hop' hdep
          rcases List.mem_cons.mp hop' with h1 | h2
          · exact absurd (h1 ▸ hdep) hd
          · exact hii op' h2 hdep
  | succ f ihf =>
    have hv : ∀ ops op_id s t, visit ops (f + 1) op_id s = some t →
        ∀ a ∈ t, a ∉ s →
          ∀ op ∈ dictValues ops, depMem a op = true → op.id ∈ t := by
      intro ops op_id s t h a ha hna op hop hdep
      simp only [visit] at h
      by_cases hm : op_id ∈ s
      · rw [if_pos hm] at h
        injection h with h'
        exact absurd (h' ▸ ha) hna
      · rw [if_neg hm] at h
        obtain ⟨hi, hii⟩ := ihf.2 ops (dictValues ops) op_id (s ++ [op_id]) t h
        by_cases ha' : a ∈ s ++ [op_id]
        · have : a = op_id := by
            rcases List.mem_append.mp ha' with h1 | h2
            · exact absurd h1 hna
            · simpa using h2
          exact hii op hop (this ▸ hdep)
        · exact hi a ha ha' op hop hdep
    refine ⟨hv, ?_⟩
    intro ops vals op_id s t h
    induction vals generalizing s with
    | nil =>
      simp only [visitFold] at h
      injection h with h'
      subst h'
      exact ⟨fun a ha hna _ _ _ => absurd ha hna, fun op hop => by simp at hop⟩
    | cons op rest ih =>
      simp only [visitFold] at h
      by_cases hd : depMem op_id op = true
      · rw [if_pos hd] at h
        cases hv1 : visit ops (f + 1) op.id s with
        | none => rw [hv1] at h; exact absurd h (by simp)
        | some s1 =>
          rw [hv1] at h
          obtain ⟨hi, hii⟩ := ih s1 h
          obtain ⟨u2, hu2⟩ := (visit_extends (f + 1)).2 ops rest op_id s1 t h
          have hsub1 : ∀ x, x ∈ s1 → x ∈ t := by
            intro x hx
            rw [hu2]
            exact List.mem_append_left u2 hx
          refine ⟨?_, ?_⟩
          · intro a ha hna op' hop' hdep
            by_cases ha1 : a ∈ s1
            · exact hsub1 _ (hv ops op.id s s1 hv1 a ha1 hna op' hop' hdep)
            · exact hi a ha ha1 op' hop' hdep
          · intro op' hop' hdep
            rcases List.mem_cons.mp hop' with h1 | h2
            · exact hsub1 _ (h1 ▸ visit_mem hv1)
            · exact hii op' h2 hdep
      · rw [if_neg hd] at h
        obtain ⟨hi, hii⟩ := ih s h
        refine ⟨hi, ?_⟩
        intro op' hop' hdep
        rcases List.mem_cons.mp hop' with h1 | h2
        · exact absurd (h1 ▸ hdep) hd
        · exact hii op' h2 hdep

/-- `List.contains` as a decidable membership test. -/
theorem contains_eq_decide_mem (l : List Int) (a : Int) :
    l.contains a = decide (a ∈ l) := by
  induction l with
  | nil => rfl
  | cons x xs ih =>
    simp [List.contains_cons, ih]

/-- Filtering with a (pointwise) stronger predicate keeps fewer
elements. -/
theorem filter_length_mono {l : List Int} {p q : Int → Bool}
    (h : ∀ x, p x = true → q x = true) :
    (l.filter p).length ≤ (l.filter q).length := by
  induction l with
  | nil => simp
  | cons x xs ih =>
    by_cases hp : p x = true
    · have hq := h x hp
      simp only [List.filter_cons, hp, hq, if_true, eq_self_iff_true,
        List.length_cons]
      omega
    · have hp' : p x = false := by simpa using hp
      simp only [List.filter_cons, hp', Bool.false_eq_true, if_false]
      by_cases hq : q x = true
      · simp only [hq, eq_self_iff_true, if_true, List.length_cons]
        omega
      · have hq' : q x = false := by simpa using hq
        simp only [hq', Bool.false_eq_true, if_false]
        exact ih

/-- The number of keys not yet marked. -/
def unmarked (ops : List (Int × OperatorInfo)) (s : List Int) : Nat :=
  ((dictKeys ops).filter (fun k => !(s.contains k))).length

/-- Growing the marked set cannot increase the unmarked count. -/
theorem unmarked_append_le (ops : List (Int × OperatorInfo)) (s u : List Int) :
    unmarked ops (s ++ u) ≤ unmarked ops s := by
  apply filter_length_mono
  intro x hx
  simp only [contains_eq_decide_mem, Bool.not_eq_true', decide_eq_false_iff_not,
    List.mem_append] at hx ⊢
  exact fun hmem => hx (Or.inl hmem)

/-- Marking an unmarked key strictly decreases the unmarked count. -/
theorem unmarked_mark_lt (keys : List Int) (s : List Int) (op_id : Int)
    (hmem : op_id ∈ keys) (hnot : op_id ∉ s) (hnd : keys.Nodup) :
    (keys.filter (fun k => !((s ++ [op_id]).contains k))).length <
      (keys.filter (fun k => !(s.contains k))).length := by
  induction keys with
  | nil => simp at hmem
  | cons k rest ih =>
    simp only [List.filter_cons]
    by_cases hk : k = op_id
    · subst hk
      have h1 : (!((s ++ [k]).contains k)) = false := by
        simp [contains_eq_decide_mem]
      have h2 : (!(s.contains k)) = true := by
        simp [contains_eq_decide_mem, hnot]
      rw [h1, h2]
      have hmono : (rest.filter (fun x => !((s ++ [k]).contains x))).length ≤
          (rest.filter (fun x => !(s.contains x))).length := by
        apply filter_length_mono
        intro x hx
        simp only [contains_eq_decide_mem, Bool.not_eq_true',
          decide_eq_false_iff_not, List.mem_append] at hx ⊢
        exact fun hm => hx (Or.inl hm)
      simp only [Bool.false_eq_true, if_false, eq_self_iff_true, if_true,
        List.length_cons]
      omega
    · have hrest : op_id ∈ rest := by
        rcases List.mem_cons.mp hmem with h1 | h2
        · exact absurd h1.symm hk
        · exact h2
      have hnd' : rest.Nodup := (List.nodup_cons.mp hnd).2
      have hlt := ih hrest hnd'
      have hsame : (!((s ++ [op_id]).contains k)) = (!(s.contains k)) := by
        simp only [contains_eq_decide_mem, List.mem_append, List.mem_singleton]
        simp [hk]
      rw [hsame]
      cases hsk : (!(s.contains k)) with
      | true =>
        simp only [eq_self_iff_true, if_true, List.length_cons]
        omega
      | false =>
        simp only [Bool.false_eq_true, if_false]
        exact hlt

/-- Traversal preserves distinctness of the marked list. -/
theorem visit_nodup (fuel : Nat) :
    (∀ ops op_id s t, visit ops fuel op_id s = some t → s.Nodup → t.Nodup) ∧
    (∀ ops vals op_id s t, visitFold ops fuel vals op_id s = some t →
      s.Nodup → t.Nodup) := by
  induction fuel with
  | zero =>
    constructor
    · intro ops op_id s t h
      simp [visit] at h
    · intro ops vals op_id s t h hs
      induction vals generalizing s with
      | nil =>
        simp only [visitFold] at h
        injection h with h'
        exact h' ▸ hs
      | cons op rest ih =>
        simp only [visitFold] at h
        by_cases hd : depMem op_id op = true
        · rw [if_pos hd] at h
          simp [visit] at h
        · rw [if_neg hd] at h
          exact ih s h hs
  | succ f ihf =>
    have hv : ∀ ops op_id s t, visit ops (f + 1) op_id s = some t →
        s.Nodup → t.Nodup := by
      intro ops op_id s t h hs
      simp only [visit] at h
      by_cases hm : op_id ∈ s
      · rw [if_pos hm] at h
        injection h with h'
        exact h' ▸ hs
      · rw [if_neg hm] at h
        refine ihf.2 ops (dictValues ops) op_id (s ++ [op_id]) t h ?_
        simpa [List.nodup_append] using ⟨hs, hm⟩
    refine ⟨hv, ?_⟩
    intro ops vals op_id s t h hs
    induction vals generalizing s with
    | nil =>
      simp only [visitFold] at h
      injection h with h'
      exact h' ▸ hs
    | cons op rest ih =>
      simp only [visitFold] at h
      by_cases hd : depMem op_id op = true
      · rw [if_pos hd] at h
        cases hv1 : visit ops (f + 1) op.id s with
        | none => rw [hv1] at h; exact absurd h (by simp)
        | some s1 =>
          rw [hv1] at h
          exact ih s1 h (hv ops op.id s s1 hv1 hs)
      · rw [if_neg hd] at h
        exact ih s h hs

/-- The id of a registry value is a registry key (given consistent
records). -/
theorem value_id_mem_keys {ops : List (Int × OperatorInfo)}
    (hid : ∀ e ∈ ops, e.2.id = e.1) {op : OperatorInfo}
    (hop : op ∈ dictValues ops) : op.id ∈ dictKeys ops := by
  simp only [dictValues, List.mem_map] at hop
  obtain ⟨e, he, rfl⟩ := hop
  simp only [dictKeys, List.mem_map]
  exact ⟨e, he, (hid e he).symm⟩

/-- Everything the traversal marks is an incoming mark, the visited id,
or a registry key. -/
theorem visit_keys (fuel : Nat) :
    (∀ ops op_id s t, (∀ e ∈ ops, e.2.id = e.1) →
      visit ops fuel op_id s = some t →
      ∀ a ∈ t, a ∈ s ∨ a = op_id ∨ a ∈ dictKeys ops) ∧
    (∀ ops vals op_id s t, (∀ e ∈ ops, e.2.id = e.1) →
      (∀ op ∈ vals, op ∈ dictValues ops) →
      visitFold ops fuel vals op_id s = some t →
      ∀ a ∈ t, a ∈ s ∨ a ∈ dictKeys ops) := by
  induction fuel with
  | zero =>
    constructor
    · intro ops op_id s t _ h
      simp [visit] at h
    · intro ops vals op_id s t hid hsub h
      induction vals generalizing s with
      | nil =>
        simp only [visitFold] at h
        injection h with h'
        exact fun a ha => Or.inl (h' ▸ ha)
      | cons op rest ih =>
        simp only [visitFold] at h
        by_cases hd : depMem op_id op = true
        · rw [if_pos hd] at h
          simp [visit] at h
        · rw [if_neg hd] at h
          exact ih s (fun op' h' => hsub op' (List.mem_cons_of_mem op h')) h
  | succ f ihf =>
    have hv : ∀ ops op_id s t, (∀ e ∈ ops, e.2.id = e.1) →
        visit ops (f + 1) op_id s = some t →
        ∀ a ∈ t, a ∈ s ∨ a = op_id ∨ a ∈ dictKeys ops := by
      intro ops op_id s t hid h
      simp only [visit] at h
      by_cases hm : op_id ∈ s
      · rw [if_pos hm] at h
        injection h with h'
        exact fun a ha => Or.inl (h' ▸ ha)
      · rw [if_neg hm] at h
        intro a ha
        rcases ihf.2 ops (dictValues ops) op_id (s ++ [op_id]) t hid
            (fun op h' => h') h a ha with h1 | h2
        · rcases List.mem_append.mp h1 with h3 | h4
          · exact Or.inl h3
          · exact Or.inr (Or.inl (by simpa using h4))
        · exact Or.inr (Or.inr h2)
    refine ⟨hv, ?_⟩
    intro ops vals op_id s t hid hsub h
    induction vals generalizing s with
    | nil =>
      simp only [visitFold] at h
      injection h with h'
      exact fun a ha => Or.inl (h' ▸ ha)
    | cons op rest ih =>
      simp only [visitFold] at h
      by_cases hd : depMem op_id op = true
      · rw [if_pos hd] at h
        cases hv1 : visit ops (f + 1) op.id s with
        | none => rw [hv1] at h; exact absurd h (by simp)
        | some s1 =>
          rw [hv1] at h
          intro a ha
          rcases ih s1 (fun op' h' => hsub op' (List.mem_cons_of_mem op h')) h
              a ha with h1 | h2
          · rcases hv ops op.id s s1 hid hv1 a h1 with h3 | h4 | h5
            · exact Or.inl h3
            · exact Or.inr (h4 ▸ value_id_mem_keys hid
                (hsub op (List.mem_cons_self op rest)))
            · exact Or.inr h5
          · exact Or.inr h2
      · rw [if_neg hd] at h
        exact ih s (fun op' h' => hsub op' (List.mem_cons_of_mem op h')) h

/-- With more fuel than unmarked keys, the traversal cannot run out:
the Python recursion terminates. -/
theorem visit_success (ops : List (Int × OperatorInfo))
    (hid : ∀ e ∈ ops, e.2.id = e.1) (hnd : (dictKeys ops).Nodup) (fuel : Nat) :
    (∀ op_id s, op_id ∈ dictKeys ops → unmarked ops s < fuel →
      (visit ops fuel op_id s).isSome) ∧
    (∀ vals op_id s, (∀ op ∈ vals, op ∈ dictValues ops) →
      unmarked ops s < fuel → (visitFold ops fuel vals op_id s).isSome) := by
  induction fuel with
  | zero =>
    exact ⟨fun _ _ _ hlt => absurd hlt (by omega),
           fun _ _ _ _ hlt => absurd hlt (by omega)⟩
  | succ f ihf =>
    have hv : ∀ op_id s, op_id ∈ dictKeys ops → unmarked ops s < f + 1 →
        (visit ops (f + 1) op_id s).isSome := by
      intro op_id s hmem hlt
      simp only [visit]
      by_cases hm : op_id ∈ s
      · rw [if_pos hm]; rfl
      · rw [if_neg hm]
        refine ihf.2 (dictValues ops) op_id (s ++ [op_id]) (fun op h' => h') ?_
        have hdec := unmarked_mark_lt (dictKeys ops) s op_id hmem hm hnd
        have : unmarked ops (s ++ [op_id]) < unmarked ops s := hdec
        omega
    refine ⟨hv, ?_⟩
    intro vals op_id s hsub hlt
    induction vals generalizing s with
    | nil => simp [visitFold]
    | cons op rest ih =>
      simp only [visitFold]
      by_cases hd : depMem op_id op = true
      · rw [if_pos hd]
        have hmem : op.id ∈ dictKeys ops :=
          value_id_mem_keys hid (hsub op (List.mem_cons_self op rest))
        have h1 := hv op.id s hmem hlt
        cases hv1 : visit ops (f + 1) op.id s with
        | none => rw [hv1] at h1; simp at h1
        | some s1 =>
          obtain ⟨u, hu⟩ := (visit_extends (f + 1)).1 ops op.id s s1 hv1
          have hle : unmarked ops s1 ≤ unmarked ops s := by
            rw [hu]; exact unmarked_append_le ops s u
          exact ih s1 (fun op' h' => hsub op' (List.mem_cons_of_mem op h'))
            (by omega)
      · rw [if_neg hd]
        exact ih s (fun op' h' => hsub op' (List.mem_cons_of_mem op h')) hlt

/-- A contained key has a binding. -/
theorem dictContains_lookup_isSome {d : List (Int × OperatorInfo)} {k : Int}
    (h : (dictKeys d).contains k = true) : (dictLookup d k).isSome := by
  rw [contains_eq_decide_mem] at h
  have hmem : k ∈ dictKeys d := of_decide_eq_true h
  simp only [dictKeys, List.mem_map] at hmem
  obtain ⟨e, he, hek⟩ := hmem
  unfold dictLookup
  have : (d.find? (fun e => e.1 == k)).isSome := by
    rw [List.find?_isSome]
    exact ⟨e, he, by simp [hek]⟩
  cases hf : d.find? (fun e => e.1 == k) with
  | none => rw [hf] at this; simp at this
  | some e' => simp

/-- The effect of `remove_operator` on the id index. -/
theorem remove_operator_ok (st : RegState) (k : Int)
    (hc : (dictKeys st.operators).contains k = true) :
    ∃ st', remove_operator st k = .ok st' ∧
      st'.operators = dictDel st.operators k := by
  unfold remove_operator
  rw [hc]
  cases hlook : dictLookup st.operators k with
  | none =>
    have := dictContains_lookup_isSome hc
    rw [hlook] at this
    simp at this
  | some op =>
    rw [if_neg (by simp)]
    exact ⟨_, rfl, rfl⟩

/-- Key membership after deleting a key. -/
theorem mem_keys_dictDel {d : List (Int × OperatorInfo)} {k i : Int} :
    i ∈ dictKeys (dictDel d k) ↔ i ∈ dictKeys d ∧ i ≠ k := by
  simp only [dictKeys, dictDel, List.mem_map, List.mem_filter]
  constructor
  · rintro ⟨e, ⟨he, hne⟩, rfl⟩
    refine ⟨⟨e, he, rfl⟩, ?_⟩
    simpa using hne
  · rintro ⟨⟨e, he, rfl⟩, hne⟩
    exact ⟨e, ⟨he, by simpa using hne⟩, rfl⟩

/-- Removing a distinct list of present ids filters exactly those
entries out of the id index. -/
theorem removeMany_filter : ∀ (ids : List Int) (st : RegState),
    ids.Nodup → (∀ i ∈ ids, i ∈ dictKeys st.operators) →
    ∃ st', ids.foldlM remove_operator st = .ok st' ∧
      st'.operators = st.operators.filter (fun e => !(ids.contains e.1)) := by
  intro ids
  induction ids with
  | nil =>
    intro st _ _
    refine ⟨st, rfl, ?_⟩
    have : ∀ e ∈ st.operators, (!(([] : List Int).contains e.1)) = true := by
      intro e _
      rfl
    rw [List.filter_eq_self.mpr this]
  | cons k rest ih =>
    intro st hnd hsub
    have hck : (dictKeys st.operators).contains k = true := by
      rw [contains_eq_decide_mem]
      exact decide_eq_true (hsub k (List.mem_cons_self k rest))
    obtain ⟨st1, h1, hops1⟩ := remove_operator_ok st k hck
    have hsub1 : ∀ i ∈ rest, i ∈ dictKeys st1.operators := by
      intro i hi
      rw [hops1]
      refine mem_keys_dictDel.mpr ⟨hsub i (List.mem_cons_of_mem k hi), ?_⟩
      intro hik
      exact (List.nodup_cons.mp hnd).1 (hik ▸ hi)
    obtain ⟨st', h2, hops2⟩ := ih st1 (List.nodup_cons.mp hnd).2 hsub1
    refine ⟨st', ?_, ?_⟩
    · rw [List.foldlM_cons, h1]
      simpa using h2
    · rw [hops2, hops1]
      unfold dictDel
      rw [List.filter_filter]
      apply List.filter_congr
      intro e _
      simp only [List.contains_cons, Bool.not_or]
      cases hek : (e.1 == k) <;> cases hrk : rest.contains e.1 <;> simp

/-- C2: on a well-formed registry (distinct keys, records carrying
their own key as id, dependency lists extracted), `delete_one_operator_by_dep`
on an existing id `X` succeeds, and it removes exactly the operators
reverse-reachable from `X` over the dependency graph — `X` itself plus
the transitive closure of "depends on `X`" — and no operator outside
that closure. -/
theorem delete_cascade_removes_exactly_closure (st : RegState) (X : Int)
    (hnd : (dictKeys st.operators).Nodup)
    (hid : ∀ e ∈ st.operators, e.2.id = e.1)
    (_hdeps : ∀ e ∈ st.operators, (e.2.dependencies).isSome)
    (hX : X ∈ dictKeys st.operators) :
    ∃ to_delete_ids st',
      visit st.operators (st.operators.length + 1) X [] = some to_delete_ids ∧
      (∀ y, y ∈ to_delete_ids ↔ reverseReachable st.operators X y) ∧
      delete_one_operator_by_dep st X = .ok st' ∧
      (∀ e, e ∈ st'.operators ↔
        e ∈ st.operators ∧ ¬ reverseReachable st.operators X e.1) := by
  have hfuel : unmarked st.operators [] < st.operators.length + 1 := by
    unfold unmarked
    have h1 := List.length_filter_le (fun k => !(([] : List Int).contains k))
      (dictKeys st.operators)
    have h2 : (dictKeys st.operators).length = st.operators.length :=
      List.length_map _ _
    omega
  have hsome := (visit_success st.operators hid hnd
    (st.operators.length + 1)).1 X [] hX hfuel
  cases hv : visit st.operators (st.operators.length + 1) X [] with
  | none => rw [hv] at hsome; simp at hsome
  | some t =>
    have hchar : ∀ y, y ∈ t ↔ reverseReachable st.operators X y := by
      intro y
      constructor
      · intro hy
        exact (visit_sound X (st.operators.length + 1)).1 st.operators X [] t hv
          Relation.ReflTransGen.refl (by simp) y hy
      · intro hr
        induction hr with
        | refl => exact visit_mem hv
        | tail hprev hedge ih =>
          obtain ⟨op, hop, rfl, hdep⟩ := hedge
          exact (visit_closed (st.operators.length + 1)).1 st.operators X [] t hv
            _ ih (by simp) op hop hdep
    have hnodupt : t.Nodup := (visit_nodup (st.operators.length + 1)).1
      st.operators X [] t hv List.nodup_nil
    have htkeys : ∀ i ∈ t, i ∈ dictKeys st.operators := by
      intro i hi
      rcases (visit_keys (st.operators.length + 1)).1 st.operators X [] t hid hv
          i hi with h1 | h2 | h3
      · simp at h1
      · exact h2 ▸ hX
      · exact h3
    obtain ⟨st', hfold, hops⟩ := removeMany_filter t st hnodupt htkeys
    have hcX : (dictKeys st.operators).contains X = true := by
      rw [contains_eq_decide_mem]
      exact decide_eq_true hX
    refine ⟨t, st', rfl, hchar, ?_, ?_⟩
    · unfold delete_one_operator_by_dep
      rw [hcX, if_neg (by simp), hv]
      exact hfold
    · intro e
      rw [hops, List.mem_filter]
      constructor
      · rintro ⟨hmem, hcont⟩
        refine ⟨hmem, ?_⟩
        intro hr
        have : e.1 ∈ t := (hchar e.1).mpr hr
        rw [contains_eq_decide_mem] at hcont
        simp only [Bool.not_eq_true', decide_eq_false_iff_not] at hcont
        exact hcont this
      · rintro ⟨hmem, hnr⟩
        refine ⟨hmem, ?_⟩
        rw [contains_eq_decide_mem]
        simp only [Bool.not_eq_true', decide_eq_false_iff_not]
        intro hmt
        exact hnr ((hchar e.1).mp hmt)

/-- An independent operator (id 2) untouched by deleting id 1. -/
def c2IndepOp : OperatorInfo :=
  { id := 2, symbol := "#", n_ary := 2, unary_position := none, is_base := none,
    definition := none, definition_type := some "simple_definition",
    priority := some 1, associativity_direction := some "left", n_order := some 1,
    op_compute_func := some "def op_2(a, b): return b",
    op_count_func := some "def op_count_2(a, b): return 0",
    dependencies := some [] }

/-- A registry where `*` (id 4) depends on `+` (id 1) and `#` (id 2) is
independent. -/
def regC2 : RegState :=
  { operators := [(1, plusOp), (2, c2IndepOp), (4, timesOp)],
    symbol_to_operators := [("+", [plusOp]), ("#", [c2IndepOp]), ("*", [timesOp])],
    base_operators := [],
    available_funcs := ["op_1", "op_count_1", "op_2", "op_count_2",
                        "op_4", "op_count_4"] }

/-- Witness for C2: deleting `+` (id 1) from `regC2` removes exactly
ids 1 and 4 (the reverse-reachable closure) and keeps id 2. -/
theorem delete_cascade_removes_exactly_closure_witness :
    ∃ to_delete_ids st',
      visit regC2.operators (regC2.operators.length + 1) 1 [] = some to_delete_ids ∧
      (∀ y, y ∈ to_delete_ids ↔ reverseReachable regC2.operators 1 y) ∧
      delete_one_operator_by_dep regC2 1 = .ok st' ∧
      (∀ e, e ∈ st'.operators ↔
        e ∈ regC2.operators ∧ ¬ reverseReachable regC2.operators 1 e.1) :=
  delete_cascade_removes_exactly_closure regC2 1 (by decide) (by decide)
    (by decide) (by decide)

/-! ### Renumbering after cascade deletion (`operator_manager.py`,
`delete_one_operator`) -/

/-- `re.sub(pattern, repl, s)` for a literal (metacharacter-free)
pattern: replace every non-overlapping occurrence, scanning left to
right and continuing after each replacement.  The Python scan needs no
fuel; the `Nat` argument only drives the model's structural recursion
and always suffices when it starts at the text's length, because every
step consumes at least one character (a match consumes
`pat.length ≥ 1` of them). -/
def replaceList (pat repl : List Char) : Nat → List Char → List Char
  | _, [] => []
  | 0, l => l
  | fuel + 1, c :: rest =>
    if pat ≠ [] ∧ pat.isPrefixOf (c :: rest) then
      repl ++ replaceList pat repl fuel ((c :: rest).drop pat.length)
    else
      c :: replaceList pat repl fuel rest

/-- `re.sub` with a literal pattern on strings. -/
def pySubAll (pat repl s : String) : String :=
  ⟨replaceList pat.data repl.data s.data.length s.data⟩

/-- `re.sub(prefixPat + r"(\d+)", repl, s, count=1)`: replace the first
occurrence of the literal prefix followed by at least one digit
(greedily consuming the digits) with `repl`, leaving the rest of the
string untouched. -/
def subFirstIdTok (pat repl : List Char) : List Char → List Char
  | [] => []
  | c :: rest =>
    if pat ≠ [] ∧ pat.isPrefixOf (c :: rest) ∧
        ((c :: rest).drop pat.length).takeWhile Char.isDigit ≠ [] then
      repl ++ ((c :: rest).drop pat.length).dropWhile Char.isDigit
    else
      c :: subFirstIdTok pat repl rest

/-- The `count=1` substitution on strings. -/
def pySubFirstIdTok (pat repl s : String) : String :=
  ⟨subFirstIdTok pat.data repl.data s.data⟩

/-- `re.findall(r"op_(\d+)", s)` with the ids converted to integers:
scan left to right; at each position an `"op_"` followed by at least
one digit yields the (greedy) digit run and the scan continues after
it. -/
def findOpRefsAux : Nat → List Char → List Int
  | _, [] => []
  | 0, _ => []
  | fuel + 1, c :: rest =>
    if ("op_".data).isPrefixOf (c :: rest) ∧
        ((c :: rest).drop 3).takeWhile Char.isDigit ≠ [] then
      Int.ofNat ((((c :: rest).drop 3).takeWhile Char.isDigit).foldl
          (fun a ch => a * 10 + (ch.toNat - 48)) 0) ::
        findOpRefsAux fuel (((c :: rest).drop 3).dropWhile Char.isDigit)
    else
      findOpRefsAux fuel rest

/-- The scanner started with enough fuel (every step consumes at least
one character, so the text's length always suffices). -/
def findOpRefs (l : List Char) : List Int :=
  findOpRefsAux l.length l

/-- `re.findall(r"op_count_(\d+)", s)` with ids as integers (same
scanner as `findOpRefs`, for the cost-procedure sources). -/
def findOpCountRefsAux : Nat → List Char → List Int
  | _, [] => []
  | 0, _ => []
  | fuel + 1, c :: rest =>
    if ("op_count_".data).isPrefixOf (c :: rest) ∧
        ((c :: rest).drop 9).takeWhile Char.isDigit ≠ [] then
      Int.ofNat ((((c :: rest).drop 9).takeWhile Char.isDigit).foldl
          (fun a ch => a * 10 + (ch.toNat - 48)) 0) ::
        findOpCountRefsAux fuel (((c :: rest).drop 9).dropWhile Char.isDigit)
    else
      findOpCountRefsAux fuel rest

/-- The cost-source scanner with its fuel fixed at the text's length. -/
def findOpCountRefs (l : List Char) : List Int :=
  findOpCountRefsAux l.length l

/-- The claim's precondition on a registry: keys are unique, every
operator's stored id equals its key, its compute and cost sources are
present and every `op_N` / `op_count_N` reference they embed denotes an
existing registry key, and its dependency list is exactly the compute
source's references minus the self-reference (the form
`extract_op_dependencies` produces). -/
def registry_consistent (ops : List (Int × OperatorInfo)) : Bool :=
  decide (dictKeys ops).Nodup &&
  ops.all (fun e =>
    e.2.id == e.1 &&
    (match e.2.op_compute_func with
     | some src => (findOpRefs src.data).all (fun d => (dictKeys ops).contains d)
     | none => false) &&
    (match e.2.op_count_func with
     | some src =>
        (findOpCountRefs src.data).all (fun d => (dictKeys ops).contains d)
     | none => false) &&
    (match e.2.dependencies, e.2.op_compute_func with
     | some deps, some src =>
        deps.all (fun d => (findOpRefs src.data).contains d && !(d == e.1)) &&
        (findOpRefs src.data).all (fun d => d == e.1 || deps.contains d)
     | _, _ => false))

/-- Inner loop body of the renumbering pass (`operator_manager.py`
lines 637-651): an operator whose dependency list mentions `old_key`
gets `old_key` rewritten to `i` in that list and the literal patterns
`op_{old_key}` / `op_count_{old_key}` substituted (every occurrence)
in its compute and cost sources.  In Python the moved object is
aliased under both keys `old_key` and `i` and the guard makes the
rewrite idempotent, so applying the step to each dict entry's own copy
gives the same surviving entries. -/
def rewrite_refs_step (old_key i : Int) (op : OperatorInfo) : OperatorInfo :=
  if depMem old_key op then
    { op with
        dependencies :=
          op.dependencies.map (List.map (fun dep => if dep == old_key then i else dep)),
        op_compute_func :=
          op.op_compute_func.map
            (pySubAll ("op_" ++ toString old_key) ("op_" ++ toString i)),
        op_count_func :=
          op.op_count_func.map
            (pySubAll ("op_count_" ++ toString old_key) ("op_count_" ++ toString i)) }
  else op

/-- One iteration of `delete_one_operator`'s renumbering loop
(`operator_manager.py` lines 619-652) for index `i` and surviving key
`old_key`: move the operator to key `i`, set its id, rewrite the first
`def op_(\d+)` / `def op_count_(\d+)` match of its sources to
`op_{i}` / `op_count_{i}`, rewrite references to `old_key` in every
operator, then delete the old key.  `old_key` always exists when the
loop runs (its keys were read from the same dict), so the `none` arm
is unreachable there; Python would raise `KeyError`. -/
def renumber_step (ops : List (Int × OperatorInfo)) (i old_key : Int) :
    List (Int × OperatorInfo) :=
  if old_key == i then ops
  else
    match dictLookup ops old_key with
    | none => ops
    | some op =>
      let op1 := { op with
          id := i,
          op_compute_func :=
            op.op_compute_func.map
              (pySubFirstIdTok "def op_" ("op_" ++ toString i)),
          op_count_func :=
            op.op_count_func.map
              (pySubFirstIdTok "def op_count_" ("op_count_" ++ toString i)) }
      let ops1 := dictSet ops i op1
      let ops2 := ops1.map (fun e => (e.1, rewrite_refs_step old_key i e.2))
      dictDel ops2 old_key

/-- `for i, old_key in enumerate(sorted_keys, start=1)` over the
renumbering body. -/
def renumber_loop :
    List (Int × OperatorInfo) → List Int → Int → List (Int × OperatorInfo)
  | ops, [], _ => ops
  | ops, old_key :: rest, i => renumber_loop (renumber_step ops i old_key) rest (i + 1)

/-- `operator_manager.py`, `OperatorManager.delete_one_operator`:
cascade-delete via `delete_one_operator_by_dep`, then renumber the
survivors to `1..N` in sorted-key order (the key list is computed once
before the loop, as in the source).  The renumbering mutates the
`OperatorInfo` objects in place, which the id index `operators` fully
reflects; the claim is about that index. -/
def delete_one_operator (st : RegState) (op_id : Int) : Except String RegState :=
  match delete_one_operator_by_dep st op_id with
  | .error e => .error e
  | .ok st1 =>
    let sorted_keys := (dictKeys st1.operators).insertionSort (fun a b => a ≤ b)
    .ok { st1 with operators := renumber_loop st1.operators sorted_keys 1 }

/-- Operator id 1 of the C1 registry: a base-like unary operator with
no dependencies. -/
def c1OpA : OperatorInfo :=
  { id := 1, symbol := "A", n_ary := 1, unary_position := some "prefix",
    is_base := none, definition := none,
    definition_type := some "simple_definition",
    priority := some 1, associativity_direction := some "left",
    n_order := some 1,
    op_compute_func := some "def op_1(a): return a",
    op_count_func := some "def op_count_1(a): return a",
    dependencies := some [] }

/-- Operator id 2 of the C1 registry: unary, no dependencies. -/
def c1OpB : OperatorInfo :=
  { id := 2, symbol := "B", n_ary := 1, unary_position := some "prefix",
    is_base := none, definition := none,
    definition_type := some "simple_definition",
    priority := some 1, associativity_direction := some "left",
    n_order := some 1,
    op_compute_func := some "def op_2(a): return a",
    op_count_func := some "def op_count_2(a): return a",
    dependencies := some [] }

/-- Operator id 25 of the C1 registry: a recursive unary operator
calling `op_2` and itself, so its sources embed `op_2`, `op_25`,
`op_count_2`, `op_count_25` and its dependency list is `[2]` (its own
id excluded, as `extract_op_dependencies` does). -/
def c1OpX : OperatorInfo :=
  { id := 25, symbol := "X", n_ary := 1, unary_position := some "prefix",
    is_base := none, definition := none,
    definition_type := some "recursive_definition",
    priority := some 1, associativity_direction := some "left",
    n_order := some 2,
    op_compute_func := some "def op_25(a): return op_2(a) + op_25(a)",
    op_count_func := some "def op_count_25(a): return op_count_2(a) + op_count_25(a)",
    dependencies := some [2] }

/-- A three-operator registry with ids 1, 2, 25 whose ids, dependency
lists and embedded source references are mutually consistent. -/
def regC1 : RegState :=
  { operators := [(1, c1OpA), (2, c1OpB), (25, c1OpX)],
    symbol_to_operators := [("A", [c1OpA]), ("B", [c1OpB]), ("X", [c1OpX])],
    base_operators := [],
    available_funcs :=
      ["op_1", "op_count_1", "op_2", "op_count_2", "op_25", "op_count_25"] }


/-- **C1.** Counterexample to no-dangling-references after
`delete_one_operator`.  On the mutually consistent registry `regC1`
(ids 1, 2, 25), deleting operator 1 renumbers the survivors to the
dense range `[1, 2]`, but the surviving operator at key 2 (old id 25)
ends with compute source `"op_2(a): return op_1(a) + op_15(a)"`: the
all-occurrence rewrite of the literal pattern `op_2` to `op_1` also
hit the prefix of `op_25`, producing a reference `op_15` to an id that
does not exist (and the `count=1` `def op_(\d+)` rewrite dropped the
`def ` keyword), so the resulting registry is no longer consistent. -/
theorem delete_one_operator_dangling_reference :
    registry_consistent regC1.operators = true ∧
    ∃ st', delete_one_operator regC1 1 = .ok st' ∧
      dictKeys st'.operators = [1, 2] ∧
      ∃ op2, dictLookup st'.operators 2 = some op2 ∧
        op2.op_compute_func = some "op_2(a): return op_1(a) + op_15(a)" ∧
        (15 : Int) ∈ findOpRefs "op_2(a): return op_1(a) + op_15(a)".data ∧
        (15 : Int) ∉ dictKeys st'.operators ∧
        registry_consistent st'.operators = false := by
  have hvisit : visit regC1.operators (regC1.operators.length + 1) 1 [] = some [1] := by
    simp [visit, visitFold, regC1, c1OpA, c1OpB, c1OpX, dictValues, depMem]
  have h1 : delete_one_operator_by_dep regC1 1 =
      .ok { operators := [(2, c1OpB), (25, c1OpX)],
            symbol_to_operators := [("A", []), ("B", [c1OpB]), ("X", [c1OpX])],
            base_operators := [],
            available_funcs := ["op_2", "op_count_2", "op_25", "op_count_25"] } := by
    unfold delete_one_operator_by_dep
    rw [hvisit]
    rfl
  have hall : (delete_one_operator regC1 1).map (fun s =>
      (dictKeys s.operators,
       (dictLookup s.operators 2).map OperatorInfo.op_compute_func,
       registry_consistent s.operators))
      = .ok ([1, 2], some (some "op_2(a): return op_1(a) + op_15(a)"), false) := by
    unfold delete_one_operator
    rw [h1]
    rfl
  refine ⟨by decide, ?_⟩
  cases hres : delete_one_operator regC1 1 with
  | error e =>
    rw [hres] at hall
    simp [Except.map] at hall
  | ok st' =>
    rw [hres] at hall
    simp only [Except.map, Except.ok.injEq, Prod.mk.injEq] at hall
    obtain ⟨hkeys, hfn, hcons⟩ := hall
    obtain ⟨op2, hop2, hval⟩ := Option.map_eq_some'.mp hfn
    refine ⟨st', rfl, hkeys, op2, hop2, hval, by decide, ?_, hcons⟩
    rw [hkeys]
    decide
